import Mathlib

/-!
Verification of the timer-dashboard / YouTube-audio application (`src/main.py`)
against its natural-language specification.

The Python source is shallowly embedded: pure functions become Lean functions
over `List Char` / `String`, `Int` and explicit state records; fallible code
returns `Option` / `Except`.  The embedding models CPython 3.11 semantics of
the library calls the source uses (`urllib.parse.urlparse`, `parse_qs`,
`str.strip`, `re.match`, `pathlib.Path.glob`, `json.loads` values, `int()`
conversion, Python truthiness).  Divergences that cannot affect any theorem
below are noted in comments at the definition they concern.
-/

/-! ### Python string helpers -/

/-- ASCII whitespace characters stripped by Python `str.strip()`.
(We model the ASCII/Latin-1 part of Python's unicode whitespace set;
all inputs appearing in theorems below are ASCII.) -/
def asciiWhitespace (c : Char) : Bool :=
  c == ' ' || c == '\t' || c == '\n' || c == '\r' || c == '\x0b' || c == '\x0c' ||
  c == '\x1c' || c == '\x1d' || c == '\x1e' || c == '\x1f' || c == '\x85' || c == '\xa0'

/-- Python `str.strip()` on a character list. -/
def pyStripChars (l : List Char) : List Char :=
  ((l.dropWhile asciiWhitespace).reverse.dropWhile asciiWhitespace).reverse

/-- Python `str.strip()`. -/
def pyStrip (s : String) : String := String.mk (pyStripChars s.data)

/-- Python `str.strip('/')` (used as `parsed.path.strip("/")` in `extract_video_id`). -/
def pyStripSlashes (l : List Char) : List Char :=
  ((l.dropWhile (fun c => c == '/')).reverse.dropWhile (fun c => c == '/')).reverse

/-! ### `urllib.parse.urlparse` (CPython 3.11) -/

/-- `urlsplit` removes `\t`, `\r`, `\n` anywhere in the URL
(`_UNSAFE_URL_BYTES_TO_REMOVE`). -/
def removeUnsafe (l : List Char) : List Char :=
  l.filter (fun c => !(c == '\t' || c == '\r' || c == '\n'))

/-- Characters allowed in a URL scheme (`scheme_chars` in `urllib.parse`). -/
def isSchemeChar (c : Char) : Bool :=
  c.isAlpha || c.isDigit || c == '+' || c == '-' || c == '.'

/-- Scheme splitting of `urlsplit`: `i = url.find(':')`; the prefix before the
first colon is a scheme iff `i > 0`, its first character is an (ASCII) letter
and all its characters are scheme characters; the scheme is lowercased.
Returns `(scheme, rest)`. -/
def splitScheme (l : List Char) : List Char × List Char :=
  let pre := l.takeWhile (fun c => c != ':')
  match pre with
  | [] => ([], l)
  | c :: _ =>
    if pre.length = l.length then ([], l)   -- no colon present
    else if c.isAlpha && pre.all isSchemeChar then
      (pre.map Char.toLower, (l.dropWhile (fun c => c != ':')).tail)
    else ([], l)

/-- A character ending the netloc section (`_splitnetloc` stops at the first
of `/`, `?`, `#`). -/
def netlocStop (c : Char) : Bool := c == '/' || c == '?' || c == '#'

/-- Netloc splitting of `urlsplit`: only when the remainder starts with `//`. -/
def splitNetloc (l : List Char) : List Char × List Char :=
  match l with
  | '/' :: '/' :: rest =>
    (rest.takeWhile (fun c => !netlocStop c), rest.dropWhile (fun c => !netlocStop c))
  | _ => ([], l)

/-- Python `s.split(sep, 1)` as a pair, assuming `sep` occurs in `s`. -/
def pySplit1 (sep : Char) (l : List Char) : List Char × List Char :=
  (l.takeWhile (fun c => c != sep), (l.dropWhile (fun c => c != sep)).tail)

/-- Index of the last `/` in `l` (0 when there is none; only used under a
guard that `/` occurs). -/
def lastIdxOfSlash (l : List Char) : Nat :=
  match l.reverse.findIdx? (fun c => c == '/') with
  | some j => l.length - 1 - j
  | none => 0

/-- `_splitparams` of `urlparse`: parameters are split at the first `;`
at-or-after the last `/` of the path (or the first `;` when there is no `/`). -/
def splitParams (l : List Char) : List Char × List Char :=
  if l.any (fun c => c == ';') then
    let start : Nat := if l.any (fun c => c == '/') then lastIdxOfSlash l else 0
    match (l.drop start).findIdx? (fun c => c == ';') with
    | some j => (l.take (start + j), l.drop (start + j + 1))
    | none => (l, [])
  else (l, [])

/-- Result of `urllib.parse.urlparse`. -/
structure PyUrl where
  scheme : List Char
  netloc : List Char
  path : List Char
  params : List Char
  query : List Char
  fragment : List Char
deriving Repr, DecidableEq

/-- `urllib.parse.urlparse` (3.11).  `none` models the `ValueError` raised on
a netloc with unbalanced square brackets ("Invalid IPv6 URL"). -/
def pyUrlparse (l0 : List Char) : Option PyUrl :=
  let l1 := removeUnsafe l0
  let (scheme, l2) := splitScheme l1
  let (netloc, l3) := splitNetloc l2
  if (netloc.any (fun c => c == '[') && !(netloc.any (fun c => c == ']'))) ||
     (netloc.any (fun c => c == ']') && !(netloc.any (fun c => c == '['))) then
    none
  else
    let (l4, fragment) := if l3.any (fun c => c == '#') then pySplit1 '#' l3 else (l3, [])
    let (l5, query) := if l4.any (fun c => c == '?') then pySplit1 '?' l4 else (l4, [])
    let (path, params) := splitParams l5
    some { scheme := scheme, netloc := netloc, path := path,
           params := params, query := query, fragment := fragment }

/-! ### `urllib.parse.parse_qs` (defaults: blanks dropped, separator `&`) -/

/-- Hexadecimal digit value. -/
def hexVal (c : Char) : Option Nat :=
  if '0' ≤ c ∧ c ≤ '9' then some (c.toNat - '0'.toNat)
  else if 'a' ≤ c ∧ c ≤ 'f' then some (c.toNat - 'a'.toNat + 10)
  else if 'A' ≤ c ∧ c ≤ 'F' then some (c.toNat - 'A'.toNat + 10)
  else none

/-- Python `str.split(sep)` (all occurrences, empty fields kept). -/
def splitAllChar (sep : Char) : List Char → List (List Char)
  | [] => [[]]
  | c :: rest =>
    match splitAllChar sep rest with
    | [] => [[]]
    | h :: t => if c == sep then [] :: h :: t else (c :: h) :: t

/-- One segment following a `%` in `unquote`: if it starts with two hex
digits they decode to that byte, otherwise the `%` is kept literally. -/
def unquoteSeg (seg : List Char) : List Char :=
  match seg with
  | a :: b :: rest =>
    match hexVal a, hexVal b with
    | some x, some y => Char.ofNat (16 * x + y) :: rest
    | _, _ => '%' :: seg
  | _ => '%' :: seg

/-- `urllib.parse.unquote`, following CPython's algorithm: split on `%`,
keep the first segment, and decode each later segment with `unquoteSeg`.
(Python decodes the resulting byte string as UTF-8; we map each byte to the
character of its code point, which agrees with Python on ASCII.  A multi-byte
divergence can only produce characters outside `[A-Za-z0-9_-]` in both
models, so no theorem below can tell the difference.) -/
def pyUnquote (l : List Char) : List Char :=
  match splitAllChar '%' l with
  | [] => []
  | first :: rest => first ++ (rest.map unquoteSeg).flatten

/-- `urllib.parse.unquote_plus`: `+` becomes a space, then percent-decoding. -/
def pyUnquotePlus (l : List Char) : List Char :=
  pyUnquote (l.map (fun c => if c == '+' then ' ' else c))

/-- `urllib.parse.parse_qsl` with default arguments: fields split on `&`;
a field without `=` or with an empty value is dropped; names and values are
`unquote_plus`-decoded. -/
def parseQsl (qs : List Char) : List (List Char × List Char) :=
  (splitAllChar '&' qs).foldr
    (fun field acc =>
      if field == [] then acc
      else if field.any (fun c => c == '=') then
        let name := field.takeWhile (fun c => c != '=')
        let value := (field.dropWhile (fun c => c != '=')).tail
        if value == [] then acc
        else (pyUnquotePlus name, pyUnquotePlus value) :: acc
      else acc)
    []

/-- `(parse_qs(query).get(key) or [None])[0]`: the first value listed for
`key`. -/
def firstQueryValue (key : List Char) (qs : List Char) : Option (List Char) :=
  (((parseQsl qs).filter (fun p => p.1 == key)).head?).map (fun p => p.2)

/-! ### `extract_video_id`, `is_valid_youtube_url`, `canonical_watch_url` -/

/-- A character of the class `[A-Za-z0-9_-]` of `VIDEO_ID_PATTERN`. -/
def isIdChar (c : Char) : Bool := c.isAlphanum || c == '_' || c == '-'

/-- `re.match(r"^[A-Za-z0-9_-]{11}$", s)` is a match: under Python `re`
semantics, `$` asserts at the end of the string or just before a trailing
newline, so the pattern accepts exactly 11 class characters optionally
followed by one final `'\n'`. -/
def videoIdMatch (l : List Char) : Bool :=
  (l.length == 11 && l.all isIdChar) ||
  (l.length == 12 && (l.take 11).all isIdChar && l.getLast? == some '\n')

/-- `host[4:] if host.startswith("www.") else host`. -/
def stripWww (h : List Char) : List Char :=
  if h.take 4 == "www.".data then h.drop 4 else h

/-- Body of `extract_video_id` after `urlparse` succeeded
(src/main.py lines 91-106). -/
def extractFromParsed (p : PyUrl) : Option (List Char) :=
  let host := stripWww (p.netloc.map Char.toLower)
  if host == "youtu.be".data then
    let segment := (pyStripSlashes p.path).takeWhile (fun c => c != '/')
    if segment == [] then none else some segment
  else if host == "youtube.com".data || host == "m.youtube.com".data ||
          host == "music.youtube.com".data then
    if p.path == "/watch".data then
      firstQueryValue "v".data p.query
    else
      match (splitAllChar '/' p.path).filter (fun seg => seg != []) with
      | p0 :: p1 :: _ =>
        if p0 == "shorts".data || p0 == "embed".data || p0 == "live".data then
          some p1
        else none
      | _ => none
  else none

/-- `extract_video_id` (src/main.py lines 85-109). -/
def extract_video_id (url : String) : Option String :=
  match pyUrlparse (pyStripChars url.data) with
  | none => none
  | some p =>
    match extractFromParsed p with
    | some v => if v != [] && videoIdMatch v then some (String.mk v) else none
    | none => none

/-- `is_valid_youtube_url` (src/main.py lines 112-128). -/
def is_valid_youtube_url (url : String) : Bool :=
  match pyUrlparse (pyStripChars url.data) with
  | none => false
  | some p =>
    if !(p.scheme == "http".data || p.scheme == "https".data) then false
    else
      let host := stripWww (p.netloc.map Char.toLower)
      if !(host == "youtube.com".data || host == "m.youtube.com".data ||
           host == "music.youtube.com".data || host == "youtu.be".data) then false
      else (extract_video_id url).isSome

/-- The fixed prefix of the canonical watch URL. -/
def canonicalPre : List Char := "https://www.youtube.com/watch?v=".data

/-- `canonical_watch_url` (src/main.py lines 131-135).  The `id == ""` test
mirrors Python truthiness of the extracted string (it is in fact never empty,
see `extract_video_id_not_empty`). -/
def canonical_watch_url (url : String) : String :=
  match extract_video_id url with
  | some id => if id == "" then pyStrip url else String.mk (canonicalPre ++ id.data)
  | none => pyStrip url

/-! Statement-level helpers for the URL claims. -/

/-- The scheme as parsed from the (stripped) input, for stating claims. -/
def urlSchemeOf (url : String) : Option String :=
  (pyUrlparse (pyStripChars url.data)).map (fun p => String.mk p.scheme)

/-- The claim's host condition: the parse succeeds and the host, lowercased
and with an optional `www.` prefix removed, is an accepted YouTube host. -/
def acceptedYtHost (url : String) : Bool :=
  match pyUrlparse (pyStripChars url.data) with
  | none => false
  | some p =>
    let host := stripWww (p.netloc.map Char.toLower)
    host == "youtube.com".data || host == "m.youtube.com".data ||
    host == "music.youtube.com".data || host == "youtu.be".data

/-- Remove one trailing newline, for stating the canonicalization-stability
claim. -/
def dropTrailingNewline (s : String) : String :=
  if s.data.getLast? == some '\n' then String.mk s.data.dropLast else s

/-! ### `pathlib.Path.glob` pattern matching and `find_cached_audio` -/

/-- A cache-directory entry: a file-system name plus whether it is a regular
file (`Path.is_file`).  The cache directory is flat, so an entry is
identified by its name. -/
structure DirEntry where
  name : String
  isFile : Bool
deriving Repr, DecidableEq

/-- Character-class items of an `fnmatch` `[...]` class: ranges `(lo, hi)`;
a single character `c` is the range `(c, c)`. -/
def classItems : List Char → List (Char × Char)
  | [] => []
  | [a] => [(a, a)]
  | [a, '-'] => [(a, a), ('-', '-')]
  | a :: '-' :: b :: rest => (a, b) :: classItems rest
  | a :: rest => (a, a) :: classItems rest

/-- Membership in a character class (range comparison is by code point, as in
the regex `fnmatch.translate` compiles to). -/
def charInClass (items : List (Char × Char)) (c : Char) : Bool :=
  items.any (fun p => p.1 ≤ c && c ≤ p.2)

/-- Parse an `fnmatch` character class given the pattern after `[`:
optional `!` negation, a first character that is literal even when it is `]`,
then content up to the closing `]`.  `none` when there is no closing `]`
(then `[` matches literally). -/
def splitClass (l : List Char) : Option (Bool × List (Char × Char) × List Char) :=
  let (neg, l1) := match l with
    | '!' :: rest => (true, rest)
    | _ => (false, l)
  match l1 with
  | ']' :: rest =>
    if rest.any (fun c => c == ']') then
      some (neg, classItems (']' :: rest.takeWhile (fun c => c != ']')),
            (rest.dropWhile (fun c => c != ']')).tail)
    else none
  | _ =>
    if l1.any (fun c => c == ']') then
      some (neg, classItems (l1.takeWhile (fun c => c != ']')),
            (l1.dropWhile (fun c => c != ']')).tail)
    else none

/-- `fnmatch` matching with explicit fuel.  Every recursive call strictly
decreases `pat.length + name.length` (the class case consumes at least the
closing `]` of the pattern and one name character), so with fuel
`pat.length + name.length + 1` the fuel never runs out; the fuel only makes
the recursion structural. -/
def fnmatchAux : Nat → List Char → List Char → Bool
  | 0, _, _ => false
  | fuel + 1, pat, name =>
    match pat, name with
    | [], [] => true
    | [], _ :: _ => false
    | '*' :: ps, ns =>
      fnmatchAux fuel ps ns ||
        (match ns with
         | [] => false
         | _ :: ns2 => fnmatchAux fuel ('*' :: ps) ns2)
    | '?' :: ps, _ :: ns => fnmatchAux fuel ps ns
    | '?' :: _, [] => false
    | '[' :: ps, ns =>
      match splitClass ps with
      | some (neg, items, rest) =>
        match ns with
        | [] => false
        | c :: ns2 =>
          (if neg then !charInClass items c else charInClass items c) &&
            fnmatchAux fuel rest ns2
      | none =>
        match ns with
        | [] => false
        | c :: ns2 => (c == '[') && fnmatchAux fuel ps ns2
    | p :: ps, c :: ns => (p == c) && fnmatchAux fuel ps ns
    | _ :: _, [] => false

/-- `fnmatch.fnmatchcase(name, pat)` (pathlib on POSIX matches
case-sensitively and, unlike the `glob` module, has no special rule for
leading dots; neither name nor pattern contains a path separator here). -/
def fnmatchList (pat name : List Char) : Bool :=
  fnmatchAux (pat.length + name.length + 1) pat name

/-- Python string comparison `a <= b`: lexicographic by code point. -/
def lexLe : List Char → List Char → Bool
  | [], _ => true
  | _ :: _, [] => false
  | a :: as, b :: bs => if a < b then true else if b < a then false else lexLe as bs

/-- Stable insertion into a name-sorted list. -/
def insertByName (e : DirEntry) : List DirEntry → List DirEntry
  | [] => [e]
  | x :: xs => if lexLe e.name.data x.name.data then e :: x :: xs else x :: insertByName e xs

/-- `sorted(...)` over directory entries: stable sort by name (paths share
the cache directory, so `Path` ordering is name ordering). -/
def sortedByName (l : List DirEntry) : List DirEntry := l.foldr insertByName []

/-- `PARTIAL_CACHE_SUFFIXES` (src/main.py line 63). -/
def cachePartSuffixes : List (List Char) :=
  [".part".data, ".ytdl".data, ".tmp".data, ".temp".data]

/-- `path.name.lower().endswith(PARTIAL_CACHE_SUFFIXES)` applied to an
already-lowercased name. -/
def hasSkipSuffix (lowered : List Char) : Bool :=
  cachePartSuffixes.any (fun suf => suf.isSuffixOf lowered)

/-- The loop body of `find_cached_audio`: first entry that is a regular file
and whose lowercased name has no partial-download suffix. -/
def findFirstGood : List DirEntry → Option String
  | [] => none
  | e :: rest =>
    if !e.isFile then findFirstGood rest
    else if hasSkipSuffix (e.name.data.map Char.toLower) then findFirstGood rest
    else some e.name

/-- `find_cached_audio` (src/main.py lines 138-145), over an explicit
directory listing.  `path.resolve()` only absolutizes the returned path; we
return the name within the cache directory. -/
def find_cached_audio (dir : List DirEntry) (video_id : String) : Option String :=
  let pat := video_id.data ++ ['.', '*']
  findFirstGood (sortedByName (dir.filter (fun e => fnmatchList pat e.name.data)))

/-! ### Timer state machine (`TimerCard`) -/

/-- `TimerSnapshot` (src/main.py lines 172-178); also the observable state of
a `TimerCard` (its `snapshot()` is the identity on these five fields). -/
structure TimerSnapshot where
  timer_id : String
  title : String
  total_seconds : Int
  remaining_seconds : Int
  is_running : Bool
deriving Repr, DecidableEq

namespace TimerCard

/-- `TimerCard.__init__` state initialisation (src/main.py lines 244-248)
followed by the final `set_running(self.is_running and self.remaining_seconds > 0)`
call of line 320. -/
def init (snapshot : TimerSnapshot) : TimerSnapshot :=
  let total := max 1 snapshot.total_seconds
  let remaining := max 0 snapshot.remaining_seconds
  { timer_id := snapshot.timer_id, title := snapshot.title,
    total_seconds := total, remaining_seconds := remaining,
    is_running := snapshot.is_running && decide (0 < remaining) }

/-- `TimerCard.set_running` (lines 329-335): the flag is forced off whenever
no time remains. -/
def set_running (running : Bool) (s : TimerSnapshot) : TimerSnapshot :=
  { s with is_running := running && decide (0 < s.remaining_seconds) }

/-- `TimerCard.apply_new_duration` (lines 341-351) with the spin-box total as
argument. -/
def apply_new_duration (new_total : Int) (s : TimerSnapshot) : TimerSnapshot :=
  let s1 := { s with total_seconds := max 1 new_total }
  let s2 := { s1 with remaining_seconds := s1.total_seconds }
  set_running false s2

/-- `TimerCard.toggle_start_pause` (lines 353-358). -/
def toggle_start_pause (s : TimerSnapshot) : TimerSnapshot :=
  let s1 := if s.remaining_seconds ≤ 0 then { s with remaining_seconds := s.total_seconds } else s
  set_running (!s1.is_running) s1

/-- `TimerCard.reset_timer` (lines 360-364). -/
def reset_timer (s : TimerSnapshot) : TimerSnapshot :=
  set_running false { s with remaining_seconds := s.total_seconds }

/-- `TimerCard.on_tick` (lines 366-379). -/
def on_tick (s : TimerSnapshot) : TimerSnapshot :=
  if s.remaining_seconds ≤ 0 then
    set_running false { s with remaining_seconds := 0 }
  else
    let s1 := { s with remaining_seconds := s.remaining_seconds - 1 }
    if s1.remaining_seconds ≤ 0 then
      set_running false { s1 with remaining_seconds := 0 }
    else s1

end TimerCard

/-! ### Python/JSON values (`json.loads` results) -/

mutual

/-- Values produced by `json.loads` and manipulated by the persistence code.
Mutually inductive with explicit list/dict spines so that all recursion below
is structural (and therefore kernel-reducible).  JSON floats are not
modelled: the layout writer only ever emits integers, and no claim below
depends on a float field. -/
inductive PyVal where
  | none
  | bool (b : Bool)
  | int (n : Int)
  | str (s : String)
  | list (xs : PyList)
  | dict (kvs : PyDict)

inductive PyList where
  | nil
  | cons (v : PyVal) (rest : PyList)

inductive PyDict where
  | nil
  | cons (k : String) (v : PyVal) (rest : PyDict)

end

/-- Dictionary lookup; on duplicate keys the last occurrence wins, as in
`json.loads`. -/
def PyDict.get : PyDict -> String -> Option PyVal
  | .nil, _ => Option.none
  | .cons k v rest, key =>
    match PyDict.get rest key with
    | Option.some r => Option.some r
    | Option.none => if k == key then Option.some v else Option.none

/-- Spine-to-list conversion. -/
def PyList.toList : PyList -> List PyVal
  | .nil => []
  | .cons v rest => v :: rest.toList

/-- List-to-spine conversion. -/
def PyList.ofList : List PyVal -> PyList
  | [] => .nil
  | v :: rest => .cons v (ofList rest)

/-- Python truthiness (`bool(x)`). -/
def pyTruthy : PyVal -> Bool
  | .none => false
  | .bool b => b
  | .int n => n != 0
  | .str s => s != ""
  | .list .nil => false
  | .list _ => true
  | .dict .nil => false
  | .dict _ => true

mutual

/-- Python `str(x)`.  (String escaping inside container `repr`s is not
modelled; no claim evaluates `str()` on a container.) -/
def pyStr : PyVal -> String
  | .none => "None"
  | .bool b => if b then "True" else "False"
  | .int n => toString n
  | .str s => s
  | .list xs => "[" ++ pyReprList xs ++ "]"
  | .dict kvs => "\x7b" ++ pyReprDict kvs ++ "\x7d"

/-- Python `repr(x)` (same caveat as `pyStr`). -/
def pyRepr : PyVal -> String
  | .none => "None"
  | .bool b => if b then "True" else "False"
  | .int n => toString n
  | .str s => "\x27" ++ s ++ "\x27"
  | .list xs => "[" ++ pyReprList xs ++ "]"
  | .dict kvs => "\x7b" ++ pyReprDict kvs ++ "\x7d"

def pyReprList : PyList -> String
  | .nil => ""
  | .cons v .nil => pyRepr v
  | .cons v rest => pyRepr v ++ ", " ++ pyReprList rest

def pyReprDict : PyDict -> String
  | .nil => ""
  | .cons k v .nil => "\x27" ++ k ++ "\x27: " ++ pyRepr v
  | .cons k v rest => "\x27" ++ k ++ "\x27: " ++ pyRepr v ++ ", " ++ pyReprDict rest

end

/-- Digits of a base-10 literal. -/
def digitsVal (l : List Char) : Option Nat :=
  if l != [] && l.all Char.isDigit then
    Option.some (l.foldl (fun acc c => acc * 10 + (c.toNat - '0'.toNat)) 0)
  else Option.none

/-- Python `int(s)` for a string: optional surrounding whitespace, optional
sign, decimal digits.  (Underscore digit grouping is not modelled.) -/
def pyIntOfStr (s : String) : Except String Int :=
  match pyStripChars s.data with
  | '+' :: rest =>
    match digitsVal rest with
    | Option.some n => .ok (n : Int)
    | Option.none => .error ("invalid literal for int() with base 10: " ++ s)
  | '-' :: rest =>
    match digitsVal rest with
    | Option.some n => .ok (-(n : Int))
    | Option.none => .error ("invalid literal for int() with base 10: " ++ s)
  | t =>
    match digitsVal t with
    | Option.some n => .ok (n : Int)
    | Option.none => .error ("invalid literal for int() with base 10: " ++ s)

/-- Python `int(x)`: ints pass through, bools become 0/1, strings are parsed,
everything else raises `TypeError` (modelled as `Except.error`). -/
def pyToInt : PyVal -> Except String Int
  | .int n => .ok n
  | .bool b => .ok (if b then 1 else 0)
  | .str s => pyIntOfStr s
  | .none => .error "int() argument must be a string or a number, not NoneType"
  | .list _ => .error "int() argument must be a string or a number, not list"
  | .dict _ => .error "int() argument must be a string or a number, not dict"

/-! ### Persistence (`save_layout` / `load_layout`) -/

instance exceptDecEq {ε α : Type} [DecidableEq ε] [DecidableEq α] :
    DecidableEq (Except ε α) := fun a b =>
  match a, b with
  | .ok x, .ok y =>
    if h : x = y then isTrue (by rw [h]) else isFalse (by intro he; cases he; exact h rfl)
  | .error x, .error y =>
    if h : x = y then isTrue (by rw [h]) else isFalse (by intro he; cases he; exact h rfl)
  | .ok _, .error _ => isFalse (by intro he; cases he)
  | .error _, .ok _ => isFalse (by intro he; cases he)

/-- `dataclasses.asdict` of a `TimerSnapshot`: the JSON object written for
one timer, in dataclass field order. -/
def snapshotToPy (s : TimerSnapshot) : PyVal :=
  .dict (.cons "timer_id" (.str s.timer_id)
        (.cons "title" (.str s.title)
        (.cons "total_seconds" (.int s.total_seconds)
        (.cons "remaining_seconds" (.int s.remaining_seconds)
        (.cons "is_running" (.bool s.is_running) .nil)))))

/-- `MainWindow.save_layout` (src/main.py lines 1079-1086): the JSON document
written for the ordered card list.  (The `json.dumps` text encoding and the
file write are outside the model; for these value types `json.loads` after
`json.dumps` is the identity.) -/
def save_layout (cards : List TimerSnapshot) : PyVal :=
  .dict (.cons "timers" (.list (PyList.ofList (cards.map snapshotToPy))) .nil)

/-- `MainWindow.add_timer_card` (src/main.py lines 741-774) restricted to its
state effect on the ordered card list: a falsy id is replaced by a fresh
`uuid.uuid4().hex` (modelled by the supply `fresh`, with `k` counting draws),
a duplicate id makes the call a no-op, otherwise a clamped snapshot is built
and a `TimerCard` initialised from it is appended. -/
def add_timer_card (fresh : Nat -> String) (k : Nat) (cards : List TimerSnapshot)
    (title : String) (total_seconds : Int) (timer_id : Option String)
    (remaining_seconds : Option Int) (is_running : Bool) :
    List TimerSnapshot × Nat :=
  let idk : String × Nat := match timer_id with
    | Option.some t => if t == "" then (fresh k, k + 1) else (t, k)
    | Option.none => (fresh k, k + 1)
  let tid := idk.1
  let k1 := idk.2
  if cards.any (fun c => c.timer_id == tid) then (cards, k1)
  else
    let snap : TimerSnapshot :=
      { timer_id := tid, title := title,
        total_seconds := max 1 total_seconds,
        remaining_seconds := max 0 (remaining_seconds.getD total_seconds),
        is_running := is_running }
    (cards ++ [TimerCard.init snap], k1)

/-- Accumulator of the `load_layout` restore loop. -/
structure LoadState where
  cards : List TimerSnapshot
  draws : Nat
  loaded : Bool

/-- One iteration of the restore loop of `load_layout`
(src/main.py lines 1102-1118): non-dict items are skipped; falsy or missing
fields fall back via Python `or`; the `int()` conversions are outside the
`try` of lines 1091-1097 and so propagate as errors. -/
def loadOneItem (fresh : Nat -> String) (st : LoadState) (item : PyVal) :
    Except String LoadState :=
  match item with
  | .dict kvs =>
    let tidv := (kvs.get "timer_id").getD .none
    let idk : String × Nat :=
      if pyTruthy tidv then (pyStr tidv, st.draws) else (fresh st.draws, st.draws + 1)
    let titlev := (kvs.get "title").getD .none
    let title := if pyTruthy titlev then pyStr titlev else "Timer"
    let totalv := (kvs.get "total_seconds").getD .none
    match (if pyTruthy totalv then pyToInt totalv else Except.ok 60) with
    | .error e => .error e
    | .ok total =>
      let remv := (kvs.get "remaining_seconds").getD .none
      match (if pyTruthy remv then pyToInt remv else Except.ok total) with
      | .error e => .error e
      | .ok remaining =>
        let is_running := pyTruthy ((kvs.get "is_running").getD (.bool false))
        let ck := add_timer_card fresh idk.2 st.cards title total (Option.some idk.1)
                   (Option.some remaining) is_running
        Except.ok ⟨ck.1, ck.2, true⟩
  | _ => Except.ok st

/-- The three default timers seeded when nothing is restorable
(src/main.py lines 1124-1126). -/
def seedCards (fresh : Nat -> String) (k : Nat) : List TimerSnapshot × Nat :=
  let a := add_timer_card fresh k [] "1 min" 60 Option.none Option.none false
  let b := add_timer_card fresh a.2 a.1 "3 min" 180 Option.none Option.none false
  add_timer_card fresh b.2 b.1 "1 hour" 3600 Option.none Option.none false

/-- `MainWindow.load_layout` (src/main.py lines 1088-1127).  The input is the
parse outcome of the layout file: `Option.none` models a missing file, an I/O
error or malformed JSON (all swallowed by the `try` of lines 1090-1097).
Returns the restored ordered card list together with a flag that is `true`
exactly when the defaults were seeded and `save_layout` was invoked
immediately; an `Except.error` models an exception escaping `load_layout`. -/
def load_layout (fresh : Nat -> String) (parsed : Option PyVal) :
    Except String (List TimerSnapshot × Bool) :=
  let data : PyDict := match parsed with
    | Option.some (.dict kvs) => kvs
    | _ => .nil
  match data.get "timers" with
  | Option.some (.list items) =>
    match items.toList with
    | [] => Except.ok ((seedCards fresh 0).1, true)
    | itemList =>
      match itemList.foldlM (loadOneItem fresh) ⟨[], 0, false⟩ with
      | .error e => .error e
      | .ok st =>
        if st.loaded then Except.ok (st.cards, false)
        else Except.ok ((seedCards fresh st.draws).1, true)
  | _ => Except.ok ((seedCards fresh 0).1, true)

/-! ### Playback queue (`MainWindow` audio panel) -/

/-- `QueueEntry` (src/main.py lines 181-188). -/
structure QueueEntry where
  queue_id : String
  url : String
  title : String
  duration : Int
  video_id : String
  file_path : String
deriving Repr, DecidableEq

/-- The audio-panel state touched by the queue operations: the list-widget
items in order, the selected row (`currentRow`, -1 for none), the id of the
currently playing entry, and the user-visible texts. -/
structure MusicState where
  entries : List QueueEntry
  currentRow : Int
  current_queue_id : Option String
  status : String
  playPauseText : String
  nowPlaying : String
deriving Repr, DecidableEq

/-- `MainWindow.selected_or_first_row` (src/main.py lines 915-919). -/
def selected_or_first_row (s : MusicState) : Int :=
  if s.currentRow < 0 && decide (0 < s.entries.length) then 0 else s.currentRow

/-- `MainWindow.find_current_row` (src/main.py lines 921-928): first row
whose entry carries the current queue id, else the selected/first fallback.
(Items always carry a `QueueEntry`, so the `isinstance` test is always
true.) -/
def find_current_row (s : MusicState) : Int :=
  match s.current_queue_id with
  | Option.some qid =>
    if qid == "" then selected_or_first_row s
    else
      match s.entries.findIdx? (fun e => e.queue_id == qid) with
      | Option.some i => (i : Int)
      | Option.none => selected_or_first_row s
  | Option.none => selected_or_first_row s

/-- `MainWindow.play_row` (src/main.py lines 933-959).  `playerAvailable`
models `self.media_player is not None`; `fileExists` models
`Path(...).exists()`. -/
def play_row (playerAvailable : Bool) (fileExists : String -> Bool) (row : Int)
    (s : MusicState) : MusicState :=
  if !playerAvailable then { s with status := "Audio player unavailable." }
  else if h : row < 0 ∨ (s.entries.length : Int) ≤ row then
    { s with status := "Select an item to play." }
  else
    let entry := s.entries.get ⟨row.toNat, by omega⟩
    if !fileExists entry.file_path then
      { s with status := "Cached file missing. Remove and add URL again." }
    else
      { s with current_queue_id := Option.some entry.queue_id,
               currentRow := row,
               playPauseText := "Pause",
               nowPlaying := "Now playing: " ++ entry.title,
               status := "Playing: " ++ entry.title }

/-- `MainWindow.play_next` (src/main.py lines 989-1002).  The Next button
invokes it with `auto_triggered = false`; the end-of-media handler with
`auto_triggered = true`. -/
def play_next (playerAvailable : Bool) (fileExists : String -> Bool)
    (auto_triggered : Bool) (s : MusicState) : MusicState :=
  let current_row := find_current_row s
  if current_row < 0 then { s with status := "Queue is empty." }
  else
    let next_row := current_row + 1
    if (s.entries.length : Int) ≤ next_row then
      let s1 := { s with playPauseText := "Play" }
      if auto_triggered then { s1 with status := "Reached end of queue." } else s1
    else play_row playerAvailable fileExists next_row s

/-! ### Statement-level definitions for the claims -/

/-- The invariant claimed for the timer state machine: positive configured
total, `remaining_seconds` in `[0, total_seconds]`, and a running timer has
time left. -/
def timerInv (s : TimerSnapshot) : Prop :=
  1 ≤ s.total_seconds ∧ 0 ≤ s.remaining_seconds ∧
  s.remaining_seconds ≤ s.total_seconds ∧
  (s.is_running = true → 0 < s.remaining_seconds)

/-- The actual effect of one save/load round trip on a valid snapshot: an
entry whose `remaining_seconds` is 0 is reloaded with `remaining_seconds`
equal to its total (the Python `or` fallback fires on the falsy 0). -/
def fixSnap (s : TimerSnapshot) : TimerSnapshot :=
  if s.remaining_seconds = 0 then { s with remaining_seconds := s.total_seconds } else s

/-- A snapshot within the domain on which the round trip is faithful:
non-empty id and title, positive total, non-negative remaining. -/
def validSnap (s : TimerSnapshot) : Prop :=
  s.timer_id ≠ "" ∧ s.title ≠ "" ∧ 1 ≤ s.total_seconds ∧ 0 ≤ s.remaining_seconds

instance : DecidablePred validSnap := fun s => by
  unfold validSnap
  infer_instance

/-- Eligibility of a cache entry for `find_cached_audio id`: name matches
`<id>.*`, is a regular file, and its lowercased name carries no
partial-download suffix. -/
def eligibleCache (video_id : String) (e : DirEntry) : Bool :=
  fnmatchList (video_id.data ++ ['.', '*']) e.name.data && e.isFile &&
    !hasSkipSuffix (e.name.data.map Char.toLower)

/-! ### General helper lemmas -/

lemma takeWhile_append_stop {p : Char → Bool} {a : List Char} (b : List Char)
    (h : (a.takeWhile p).length ≠ a.length) :
    (a ++ b).takeWhile p = a.takeWhile p := by
  rw [List.takeWhile_append, if_neg h]

lemma dropWhile_append_stop {p : Char → Bool} {a : List Char} (b : List Char)
    (h : (a.dropWhile p).isEmpty = false) :
    (a ++ b).dropWhile p = a.dropWhile p ++ b := by
  rw [List.dropWhile_append, if_neg (by simp [h])]

lemma idChar_ne {c x : Char} (h : isIdChar c = true) (hx : isIdChar x = false) : c ≠ x := by
  intro he
  rw [he, hx] at h
  cases h

lemma idChar_beq_false {c x : Char} (h : isIdChar c = true) (hx : isIdChar x = false) :
    (c == x) = false :=
  beq_eq_false_iff_ne.mpr (idChar_ne h hx)

lemma all_idChar_mem {x : List Char} (hall : x.all isIdChar = true) {c : Char} (hc : c ∈ x) :
    isIdChar c = true :=
  List.all_eq_true.mp hall c hc

lemma any_beq_false_of_idChar {x : List Char} (hall : x.all isIdChar = true) {d : Char}
    (hd : isIdChar d = false) : (x.any (fun c => c == d)) = false := by
  rw [Bool.eq_false_iff]
  intro hany
  obtain ⟨c, hc, hcd⟩ := List.any_eq_true.mp hany
  exact idChar_ne (all_idChar_mem hall hc) hd (eq_of_beq hcd)

lemma removeUnsafe_idChar {x : List Char} (hall : x.all isIdChar = true) :
    removeUnsafe x = x := by
  unfold removeUnsafe
  rw [List.filter_eq_self]
  intro c hc
  have h := all_idChar_mem hall hc
  have h1 := idChar_beq_false h (show isIdChar '\t' = false from by decide)
  have h2 := idChar_beq_false h (show isIdChar '\r' = false from by decide)
  have h3 := idChar_beq_false h (show isIdChar '\n' = false from by decide)
  simp [h1, h2, h3]

lemma asciiWhitespace_false_of_idChar {c : Char} (h : isIdChar c = true) :
    asciiWhitespace c = false := by
  have hb : ∀ x : Char, isIdChar x = false → (c == x) = false := fun x hx => idChar_beq_false h hx
  unfold asciiWhitespace
  rw [hb ' ' (by decide), hb '\t' (by decide), hb '\n' (by decide), hb '\r' (by decide),
      hb '\x0b' (by decide), hb '\x0c' (by decide), hb '\x1c' (by decide), hb '\x1d' (by decide),
      hb '\x1e' (by decide), hb '\x1f' (by decide), hb '\x85' (by decide), hb '\xa0' (by decide)]
  rfl

lemma splitAllChar_no_sep {sep : Char} {l : List Char}
    (h : ∀ c ∈ l, (c == sep) = false) : splitAllChar sep l = [l] := by
  induction l with
  | nil => rfl
  | cons c rest ih =>
    have hrest : splitAllChar sep rest = [rest] := ih (fun d hd => h d (List.mem_cons_of_mem _ hd))
    have hc : ¬ c = sep := beq_eq_false_iff_ne.mp (h c (List.mem_cons_self c rest))
    unfold splitAllChar
    rw [hrest]
    simp [hc]

lemma pyUnquote_no_pct {l : List Char} (h : ∀ c ∈ l, (c == '%') = false) :
    pyUnquote l = l := by
  unfold pyUnquote
  rw [splitAllChar_no_sep h]
  simp

lemma map_plus_id {l : List Char} (h : ∀ c ∈ l, (c == '+') = false) :
    l.map (fun c => if c == '+' then ' ' else c) = l := by
  induction l with
  | nil => rfl
  | cons c rest ih =>
    have hc : ¬ c = '+' := beq_eq_false_iff_ne.mp (h c (List.mem_cons_self c rest))
    simp only [List.map_cons, ih (fun d hd => h d (List.mem_cons_of_mem _ hd))]
    simp [hc]

lemma pyUnquotePlus_idChar {x : List Char} (hall : x.all isIdChar = true) :
    pyUnquotePlus x = x := by
  unfold pyUnquotePlus
  rw [map_plus_id (fun c hc => idChar_beq_false (all_idChar_mem hall hc) (by decide))]
  exact pyUnquote_no_pct (fun c hc => idChar_beq_false (all_idChar_mem hall hc) (by decide))

/-! ### Timer state-machine lemmas -/

lemma on_tick_run (id title : String) (total r : Int) (hr : 0 < r) :
    TimerCard.on_tick ⟨id, title, total, r, true⟩ =
      if r ≤ 1 then ⟨id, title, total, 0, false⟩ else ⟨id, title, total, r - 1, true⟩ := by
  unfold TimerCard.on_tick TimerCard.set_running
  rw [if_neg (by omega : ¬ r ≤ 0)]
  by_cases h : r - 1 ≤ 0
  · rw [if_pos h, if_pos (by omega : r ≤ 1)]
    simp
  · rw [if_neg h, if_neg (by omega : ¬ r ≤ 1)]

lemma on_tick_expired (id title : String) (total : Int) :
    TimerCard.on_tick ⟨id, title, total, 0, false⟩ = ⟨id, title, total, 0, false⟩ := by
  unfold TimerCard.on_tick TimerCard.set_running
  rw [if_pos (by omega : (0:Int) ≤ 0)]
  simp

lemma tick_iter_formula (id title : String) (total : Int) (k : Nat) :
    ∀ r : Int, 0 < r → (k : Int) ≤ r →
    TimerCard.on_tick^[k] ⟨id, title, total, r, true⟩ =
      if (k : Int) < r then ⟨id, title, total, r - k, true⟩
      else ⟨id, title, total, 0, false⟩ := by
  induction k with
  | zero =>
    intro r hr _
    simp [if_pos hr]
  | succ k ih =>
    intro r hr hk
    rw [Function.iterate_succ_apply, on_tick_run id title total r hr]
    by_cases h1 : r ≤ 1
    · have hr1 : r = 1 := by omega
      subst hr1
      have hk0 : k = 0 := by omega
      subst hk0
      rw [if_pos (by omega : (1:Int) ≤ 1)]
      simp only [Function.iterate_zero_apply]
      norm_num
    · rw [if_neg h1]
      rw [ih (r - 1) (by omega) (by push_cast at hk ⊢; omega)]
      by_cases h2 : (k : Int) < r - 1
      · rw [if_pos h2, if_pos (by push_cast; omega)]
        simp only [TimerSnapshot.mk.injEq, true_and, and_true]
        push_cast
        ring
      · rw [if_neg h2, if_neg (by push_cast; omega)]

lemma init_eq (snap : TimerSnapshot) :
    TimerCard.init snap =
      ⟨snap.timer_id, snap.title, max 1 snap.total_seconds,
       max 0 snap.remaining_seconds,
       snap.is_running && decide (0 < max 0 snap.remaining_seconds)⟩ := rfl

lemma set_running_eq (b : Bool) (s : TimerSnapshot) :
    TimerCard.set_running b s =
      ⟨s.timer_id, s.title, s.total_seconds, s.remaining_seconds,
       b && decide (0 < s.remaining_seconds)⟩ := rfl

lemma reset_timer_eq (s : TimerSnapshot) :
    TimerCard.reset_timer s =
      ⟨s.timer_id, s.title, s.total_seconds, s.total_seconds, false⟩ := by
  unfold TimerCard.reset_timer TimerCard.set_running
  simp

lemma apply_new_duration_eq (n : Int) (s : TimerSnapshot) :
    TimerCard.apply_new_duration n s =
      ⟨s.timer_id, s.title, max 1 n, max 1 n, false⟩ := by
  unfold TimerCard.apply_new_duration TimerCard.set_running
  simp

lemma on_tick_eq (s : TimerSnapshot) :
    TimerCard.on_tick s =
      if s.remaining_seconds ≤ 0 then
        ⟨s.timer_id, s.title, s.total_seconds, 0, false⟩
      else if s.remaining_seconds - 1 ≤ 0 then
        ⟨s.timer_id, s.title, s.total_seconds, 0, false⟩
      else
        ⟨s.timer_id, s.title, s.total_seconds, s.remaining_seconds - 1, s.is_running⟩ := by
  unfold TimerCard.on_tick TimerCard.set_running
  by_cases h : s.remaining_seconds ≤ 0
  · rw [if_pos h, if_pos h]
    simp
  · rw [if_neg h, if_neg h]
    by_cases h2 : s.remaining_seconds - 1 ≤ 0
    · rw [if_pos h2, if_pos h2]
      simp
    · rw [if_neg h2, if_neg h2]

lemma toggle_eq (s : TimerSnapshot) :
    TimerCard.toggle_start_pause s =
      if s.remaining_seconds ≤ 0 then
        ⟨s.timer_id, s.title, s.total_seconds, s.total_seconds,
         !s.is_running && decide (0 < s.total_seconds)⟩
      else
        ⟨s.timer_id, s.title, s.total_seconds, s.remaining_seconds,
         !s.is_running && decide (0 < s.remaining_seconds)⟩ := by
  unfold TimerCard.toggle_start_pause TimerCard.set_running
  by_cases h : s.remaining_seconds ≤ 0
  · rw [if_pos h, if_pos h]
  · rw [if_neg h, if_neg h]

/-! ### Claim C3 -/

/-- C3 (amended): for every prior state and every integer `new_total`,
`apply_new_duration` leaves the timer idle (not running) with
`total_seconds = remaining_seconds = max 1 new_total`; elapsed progress is
never preserved.  (The claim's `remaining_seconds = new_total` is what fails:
for `new_total = 0` the code clamps the remaining time to 1 as well, see the
counterexample.) -/
theorem C3_set_duration (s : TimerSnapshot) (new_total : Int) :
    TimerCard.apply_new_duration new_total s =
      { timer_id := s.timer_id, title := s.title,
        total_seconds := max 1 new_total,
        remaining_seconds := max 1 new_total,
        is_running := false } := by
  unfold TimerCard.apply_new_duration TimerCard.set_running
  simp

/-- C3 counterexample: with `new_total = 0` (all three spin boxes at zero,
a reachable input) the claim demands `remaining_seconds = new_total = 0`,
but `apply_new_duration` leaves `remaining_seconds = max 1 0 = 1`. -/
theorem C3_counterexample :
    (TimerCard.apply_new_duration 0 ⟨"a", "t", 5, 3, true⟩).remaining_seconds = 1 ∧
    (1 : Int) ≠ 0 := by decide

/-! ### Claim C2 -/

/-- C2 (amended): creation always establishes `1 ≤ total_seconds`,
`0 ≤ remaining_seconds` and `is_running → remaining_seconds > 0`; the full
claimed invariant (which adds `remaining_seconds ≤ total_seconds`) is
established at creation only when the snapshot satisfies
`remaining_seconds ≤ max 1 total_seconds` — restoration does not clamp
`remaining_seconds` from above (see the counterexample) — and it is preserved
by every transition (`set_running`, `tick`, `reset`, `toggle`,
`setDuration`). -/
theorem C2_invariant :
    (∀ snap : TimerSnapshot,
        1 ≤ (TimerCard.init snap).total_seconds ∧
        0 ≤ (TimerCard.init snap).remaining_seconds ∧
        ((TimerCard.init snap).is_running = true →
          0 < (TimerCard.init snap).remaining_seconds)) ∧
    (∀ snap : TimerSnapshot, snap.remaining_seconds ≤ max 1 snap.total_seconds →
        timerInv (TimerCard.init snap)) ∧
    (∀ s : TimerSnapshot, timerInv s →
        (∀ b, timerInv (TimerCard.set_running b s)) ∧
        timerInv (TimerCard.on_tick s) ∧
        timerInv (TimerCard.reset_timer s) ∧
        timerInv (TimerCard.toggle_start_pause s) ∧
        (∀ n, timerInv (TimerCard.apply_new_duration n s))) := by
  refine ⟨?_, ?_, ?_⟩
  · intro snap
    rw [init_eq]
    dsimp only
    refine ⟨le_max_left 1 _, le_max_left 0 _, ?_⟩
    simp only [Bool.and_eq_true, decide_eq_true_eq]
    exact fun h => h.2
  · intro snap hle
    unfold timerInv
    rw [init_eq]
    dsimp only
    refine ⟨le_max_left 1 _, le_max_left 0 _, by omega, ?_⟩
    simp only [Bool.and_eq_true, decide_eq_true_eq]
    exact fun h => h.2
  · intro s hinv
    obtain ⟨ht, hr0, hrt, hrun⟩ := hinv
    refine ⟨?_, ?_, ?_, ?_, ?_⟩
    · intro b
      unfold timerInv
      rw [set_running_eq]
      dsimp only
      refine ⟨ht, hr0, hrt, ?_⟩
      simp only [Bool.and_eq_true, decide_eq_true_eq]
      exact fun h => h.2
    · unfold timerInv
      rw [on_tick_eq]
      by_cases h : s.remaining_seconds ≤ 0
      · rw [if_pos h]
        dsimp only
        exact ⟨ht, by omega, by omega, by simp⟩
      · rw [if_neg h]
        by_cases h2 : s.remaining_seconds - 1 ≤ 0
        · rw [if_pos h2]
          dsimp only
          exact ⟨ht, by omega, by omega, by simp⟩
        · rw [if_neg h2]
          dsimp only
          exact ⟨ht, by omega, by omega, fun _ => by omega⟩
    · unfold timerInv
      rw [reset_timer_eq]
      dsimp only
      exact ⟨ht, by omega, by omega, by simp⟩
    · unfold timerInv
      rw [toggle_eq]
      by_cases h : s.remaining_seconds ≤ 0
      · rw [if_pos h]
        dsimp only
        refine ⟨ht, by omega, by omega, ?_⟩
        simp only [Bool.and_eq_true, decide_eq_true_eq]
        exact fun hh => hh.2
      · rw [if_neg h]
        dsimp only
        refine ⟨ht, hr0, hrt, ?_⟩
        simp only [Bool.and_eq_true, decide_eq_true_eq]
        exact fun hh => hh.2
    · intro n
      unfold timerInv
      rw [apply_new_duration_eq]
      dsimp only
      exact ⟨le_max_left 1 _, le_max_of_le_left (by omega), le_refl _, by simp⟩

/-- Witness for C2: the invariant theorem applied at concrete states. -/
theorem C2_invariant_witness :
    timerInv (TimerCard.init ⟨"a", "t", 60, 60, false⟩) ∧
    timerInv (TimerCard.on_tick ⟨"b", "u", 3, 2, true⟩) :=
  ⟨C2_invariant.2.1 ⟨"a", "t", 60, 60, false⟩ (by decide),
   (C2_invariant.2.2 ⟨"b", "u", 3, 2, true⟩
     ⟨by decide, by decide, by decide, fun _ => by decide⟩).2.1⟩

/-- C2 counterexample: restoring the persisted snapshot
`{timer_id: "a", total_seconds: 5, remaining_seconds: 10}` yields a live
card with `remaining_seconds = 10 > 5 = total_seconds`: creation from a
persisted snapshot does not clamp `remaining_seconds` into
`[0, total_seconds]`. -/
theorem C2_counterexample :
    load_layout (fun n => toString n) (Option.some (PyVal.dict (.cons "timers"
      (.list (.cons (.dict (.cons "timer_id" (.str "a")
        (.cons "total_seconds" (.int 5)
        (.cons "remaining_seconds" (.int 10) .nil)))) .nil)) .nil))) =
      Except.ok ([⟨"a", "Timer", 5, 10, false⟩], false) ∧
    ¬ ((10 : Int) ≤ 5) := by decide

/-! ### Claim C4 -/

/-- C4 (confirmed): a fresh running timer with `remaining = total = t ≥ 1`
is, after `k ≤ t` ticks, still running with `remaining = t - k` when
`k < t`, and exactly at the `t`-th tick becomes `Expired`
(`remaining = 0`, not running) — reached exactly once, since every earlier
state is running; each tick while running decrements `remaining` by exactly
one, and (second conjunct) no tick ever makes `remaining` negative. -/
theorem C4_tick_reaches_expired (id title : String) (t : Int) (k : Nat)
    (ht : 1 ≤ t) (hk : (k : Int) ≤ t) :
    (TimerCard.on_tick^[k] ⟨id, title, t, t, true⟩ =
       if (k : Int) < t then ⟨id, title, t, t - k, true⟩
       else ⟨id, title, t, 0, false⟩) ∧
    (∀ s : TimerSnapshot, 0 ≤ s.remaining_seconds →
       0 ≤ (TimerCard.on_tick s).remaining_seconds) := by
  constructor
  · exact tick_iter_formula id title t k t (by omega) hk
  · intro s hs
    unfold TimerCard.on_tick TimerCard.set_running
    by_cases h : s.remaining_seconds ≤ 0
    · rw [if_pos h]
    · rw [if_neg h]
      by_cases h2 : s.remaining_seconds - 1 ≤ 0
      · rw [if_pos h2]
      · rw [if_neg h2]
        simp
        omega

/-- Witness for C4: a 3-second timer expires exactly at the third tick. -/
theorem C4_tick_reaches_expired_witness :
    1 ≤ (3 : Int) ∧
    TimerCard.on_tick^[3] ⟨"a", "t", 3, 3, true⟩ = ⟨"a", "t", 3, 0, false⟩ := by
  refine ⟨by decide, ?_⟩
  have h := (C4_tick_reaches_expired "a" "t" 3 3 (by decide) (by decide)).1
  rw [if_neg (by norm_num)] at h
  exact h

/-! ### Claim C6 -/

/-- C6 (amended): when the current entry is the last queue entry,
`play_next` never wraps — queue, selected row and current id are unchanged —
but the "Reached end of queue." status is surfaced only when the advance was
auto-triggered by end-of-media; a user-invoked advance leaves the status
text unchanged (see the counterexample). -/
theorem C6_advance_at_end (pa : Bool) (fe : String → Bool) (auto : Bool)
    (s : MusicState) (qid : String) (hne : s.entries ≠ [])
    (hq : s.current_queue_id = Option.some qid) (hqne : qid ≠ "")
    (hidx : s.entries.findIdx? (fun e => e.queue_id == qid) =
      Option.some (s.entries.length - 1)) :
    (play_next pa fe auto s).current_queue_id = s.current_queue_id ∧
    (play_next pa fe auto s).currentRow = s.currentRow ∧
    (play_next pa fe auto s).entries = s.entries ∧
    (play_next pa fe auto s).status =
      (if auto = true then "Reached end of queue." else s.status) := by
  have hlen : 1 ≤ s.entries.length := by
    cases hE : s.entries with
    | nil => exact absurd hE hne
    | cons a l => simp
  have hq2 : (qid == "") = false := beq_eq_false_iff_ne.mpr hqne
  have hfind : find_current_row s = ((s.entries.length - 1 : Nat) : Int) := by
    unfold find_current_row
    rw [hq]
    simp only [hq2, Bool.false_eq_true, if_false]
    rw [hidx]
  unfold play_next
  rw [hfind]
  rw [if_neg (by omega : ¬ ((s.entries.length - 1 : Nat) : Int) < 0)]
  rw [if_pos (by omega : (s.entries.length : Int) ≤ ((s.entries.length - 1 : Nat) : Int) + 1)]
  cases auto <;> simp

/-- Witness for C6: auto-triggered advance from the last entry surfaces the
end-of-queue status and leaves the current entry unchanged. -/
theorem C6_advance_at_end_witness :
    (play_next true (fun _ => true) true
        ⟨[⟨"qa", "u", "A", 10, "va", "fa"⟩], 0, Option.some "qa", "Ready.", "Play", "x"⟩).status =
      "Reached end of queue." ∧
    (play_next true (fun _ => true) true
        ⟨[⟨"qa", "u", "A", 10, "va", "fa"⟩], 0, Option.some "qa", "Ready.", "Play", "x"⟩).current_queue_id =
      Option.some "qa" := by
  have h := C6_advance_at_end true (fun _ => true) true
    ⟨[⟨"qa", "u", "A", 10, "va", "fa"⟩], 0, Option.some "qa", "Ready.", "Play", "x"⟩
    "qa" (by decide) rfl (by decide) (by decide)
  refine ⟨?_, ?_⟩
  · rw [h.2.2.2]
    rfl
  · rw [h.1]

/-- C6 counterexample: the user-invoked advance (Next button,
`auto_triggered = false`) from the last entry does not surface any
end-of-queue status: the status text stays "Ready.". -/
theorem C6_counterexample :
    (play_next true (fun _ => true) false
        ⟨[⟨"qa", "u", "A", 10, "va", "fa"⟩], 0, Option.some "qa", "Ready.", "Play", "x"⟩).status =
      "Ready." ∧
    "Ready." ≠ "Reached end of queue." ∧
    (play_next true (fun _ => true) false
        ⟨[⟨"qa", "u", "A", 10, "va", "fa"⟩], 0, Option.some "qa", "Ready.", "Play", "x"⟩).current_queue_id =
      Option.some "qa" := by decide

/-! ### URL-resolver lemmas -/

lemma extract_some_spec {u v : String} (h : extract_video_id u = some v) :
    acceptedYtHost u = true ∧ videoIdMatch v.data = true ∧ v.data ≠ [] := by
  unfold extract_video_id at h
  cases hp : pyUrlparse (pyStripChars u.data) with
  | none =>
    rw [hp] at h
    cases h
  | some p =>
    rw [hp] at h
    dsimp only at h
    cases hv : extractFromParsed p with
    | none =>
      rw [hv] at h
      cases h
    | some w =>
      rw [hv] at h
      dsimp only at h
      by_cases hc : (w != [] && videoIdMatch w) = true
      · rw [if_pos hc] at h
        have hc2 : w ≠ [] ∧ videoIdMatch w = true := by simpa using hc
        cases h
        refine ⟨?_, hc2.2, hc2.1⟩
        unfold acceptedYtHost
        rw [hp]
        unfold extractFromParsed at hv
        dsimp only at hv ⊢
        by_cases h1 : ((stripWww (p.netloc.map Char.toLower)) == "youtu.be".data) = true
        · simp [h1]
        · rw [Bool.not_eq_true] at h1
          rw [h1] at hv
          simp only [Bool.false_eq_true, if_false] at hv
          by_cases h2 : ((stripWww (p.netloc.map Char.toLower)) == "youtube.com".data ||
              (stripWww (p.netloc.map Char.toLower)) == "m.youtube.com".data ||
              (stripWww (p.netloc.map Char.toLower)) == "music.youtube.com".data) = true
          · simp only [Bool.or_eq_true] at h2 ⊢
            tauto
          · rw [Bool.not_eq_true] at h2
            rw [h2] at hv
            simp only [Bool.false_eq_true, if_false] at hv
            cases hv
      · rw [if_neg hc] at h
        cases h

lemma extract_not_empty {u v : String} (h : extract_video_id u = some v) :
    (v == "") = false := by
  have h3 := (extract_some_spec h).2.2
  refine beq_eq_false_iff_ne.mpr ?_
  intro he
  apply h3
  rw [he]

/-! ### Claim C5 -/

/-- C5 (amended): whenever `extract_video_id` returns an identifier, the
parsed host of the input (lowercased, with an optional `www.` prefix
removed) is one of `youtube.com`, `m.youtube.com`, `music.youtube.com`,
`youtu.be`, and the identifier matches `^[A-Za-z0-9_-]{11}$` under Python
`re` semantics (exactly 11 class characters, optionally followed by one
trailing newline); contrapositively, every input with any other host — such
as a correct path/query on `example.com` — and every malformed input yields
`none`, without throwing.  The two corrections to the claim: the scheme is
not checked by `extract_video_id` (only `is_valid_youtube_url` checks it),
and the result need not be exactly 11 characters because Python's `$`
anchor also matches before one trailing newline (reachable via a `%0A`
query escape) — see the counterexample. -/
theorem C5_extract_video_id (u v : String) (h : extract_video_id u = some v) :
    acceptedYtHost u = true ∧ videoIdMatch v.data = true :=
  ⟨(extract_some_spec h).1, (extract_some_spec h).2.1⟩

/-- Witness for C5: the theorem applied at the spec's own example, plus the
wrong-host example. -/
theorem C5_extract_video_id_witness :
    extract_video_id "https://www.youtu.be/dQw4w9WgXcQ" = some "dQw4w9WgXcQ" ∧
    acceptedYtHost "https://www.youtu.be/dQw4w9WgXcQ" = true ∧
    videoIdMatch "dQw4w9WgXcQ".data = true ∧
    extract_video_id "https://example.com/watch?v=dQw4w9WgXcQ" = none := by
  have h : extract_video_id "https://www.youtu.be/dQw4w9WgXcQ" = some "dQw4w9WgXcQ" := by
    decide
  exact ⟨h, (C5_extract_video_id _ _ h).1, (C5_extract_video_id _ _ h).2, by decide⟩

/-- C5 counterexample: (1) an accepted host with scheme `ftp` still yields
the identifier, refuting the claim's "only when the scheme is http or
https"; (2) `%0A` in the `v` query parameter decodes to a trailing newline
that Python's `$` anchor accepts, so the returned value has 12 characters,
refuting "returns an 11-character identifier". -/
theorem C5_counterexample :
    (extract_video_id "ftp://youtu.be/dQw4w9WgXcQ" = some "dQw4w9WgXcQ" ∧
     urlSchemeOf "ftp://youtu.be/dQw4w9WgXcQ" = some "ftp" ∧
     "ftp" ≠ "http" ∧ "ftp" ≠ "https") ∧
    (extract_video_id "https://youtube.com/watch?v=abcdefghij1%0A" =
        some "abcdefghij1\n" ∧
     ("abcdefghij1\n" : String).length = 12) := by decide

/-! ### Claim C9 -/

/-- C9 (confirmed): whenever an identifier resolves from the input,
`canonical_watch_url` returns `https://www.youtube.com/watch?v=<id>`; when
no identifier resolves it returns the trimmed input unchanged rather than an
error; and the spec's example rewrites as stated. -/
theorem C9_canonical_watch_url :
    (∀ u id : String, extract_video_id u = some id →
        canonical_watch_url u = String.mk (canonicalPre ++ id.data)) ∧
    (∀ u : String, extract_video_id u = none → canonical_watch_url u = pyStrip u) ∧
    canonical_watch_url "https://youtu.be/dQw4w9WgXcQ?t=5" =
      "https://www.youtube.com/watch?v=dQw4w9WgXcQ" := by
  refine ⟨?_, ?_, by decide⟩
  · intro u id h
    unfold canonical_watch_url
    rw [h]
    dsimp only
    simp [extract_not_empty h]
  · intro u h
    unfold canonical_watch_url
    rw [h]

/-- Witness for C9: both branches of the theorem at concrete inputs. -/
theorem C9_canonical_watch_url_witness :
    canonical_watch_url "https://www.youtu.be/dQw4w9WgXcQ" =
      String.mk (canonicalPre ++ "dQw4w9WgXcQ".data) ∧
    canonical_watch_url "nonsense  " = pyStrip "nonsense  " :=
  ⟨C9_canonical_watch_url.1 _ _ (by decide), C9_canonical_watch_url.2.1 _ (by decide)⟩

/-! ### Parsing the canonical watch URL with a symbolic identifier -/

lemma splitScheme_canonical (x : List Char) :
    splitScheme (canonicalPre ++ x) =
      ("https".data, "//www.youtube.com/watch?v=".data ++ x) := by
  have hTW : (canonicalPre ++ x).takeWhile (fun c => c != ':') = "https".data := by
    rw [takeWhile_append_stop x (by decide),
        (by decide : canonicalPre.takeWhile (fun c => c != ':') = "https".data)]
  have hDW : (canonicalPre ++ x).dropWhile (fun c => c != ':') =
      ':' :: ("//www.youtube.com/watch?v=".data ++ x) := by
    rw [dropWhile_append_stop x (by decide),
        (by decide : canonicalPre.dropWhile (fun c => c != ':') =
          ':' :: "//www.youtube.com/watch?v=".data)]
    rfl
  have hlen : (canonicalPre ++ x).length = 32 + x.length := by
    rw [List.length_append]
    norm_num
    decide
  unfold splitScheme
  rw [hTW, hDW, hlen]
  dsimp only
  rw [if_neg (by simp only [List.length_cons, List.length_nil]; omega)]
  rw [if_pos (by decide)]
  simp only [List.tail_cons, Prod.mk.injEq]
  exact ⟨by decide, trivial⟩

lemma removeUnsafe_append (a b : List Char) :
    removeUnsafe (a ++ b) = removeUnsafe a ++ removeUnsafe b := by
  unfold removeUnsafe
  rw [List.filter_append]

lemma pyUrlparse_canonical (x : List Char) (hall : x.all isIdChar = true) :
    pyUrlparse (canonicalPre ++ x) =
      some ⟨"https".data, "www.youtube.com".data, "/watch".data, [],
            "v=".data ++ x, []⟩ := by
  have hrm : removeUnsafe (canonicalPre ++ x) = canonicalPre ++ x := by
    rw [removeUnsafe_append, removeUnsafe_idChar hall,
        (by decide : removeUnsafe canonicalPre = canonicalPre)]
  have hfrag : (("/watch?v=".data ++ x).any (fun c => c == '#')) = false := by
    rw [List.any_append, any_beq_false_of_idChar hall (by decide),
        (by decide : ("/watch?v=".data.any (fun c => c == '#')) = false)]
    rfl
  unfold pyUrlparse
  dsimp only
  rw [hrm, splitScheme_canonical x]
  dsimp only
  rw [show splitNetloc ("//www.youtube.com/watch?v=".data ++ x) =
      ("www.youtube.com".data, "/watch?v=".data ++ x) from rfl]
  dsimp only
  rw [if_neg (by decide)]
  rw [hfrag]
  simp only [Bool.false_eq_true, if_false]
  rw [show (("/watch?v=".data ++ x).any (fun c => c == '?')) = true from rfl]
  simp only [if_true]
  rw [show pySplit1 '?' ("/watch?v=".data ++ x) = ("/watch".data, "v=".data ++ x) from rfl]
  dsimp only
  rw [show splitParams "/watch".data = ("/watch".data, []) from by decide]

lemma strip_front (x : List Char) :
    (canonicalPre ++ x).dropWhile asciiWhitespace = canonicalPre ++ x := by
  rw [dropWhile_append_stop x (by decide),
      (by decide : canonicalPre.dropWhile asciiWhitespace = canonicalPre)]

lemma strip_back_idchar (x : List Char) (hne : x ≠ []) (hall : x.all isIdChar = true) :
    (x.reverse ++ canonicalPre.reverse).dropWhile asciiWhitespace =
      x.reverse ++ canonicalPre.reverse := by
  have hrev : x.reverse ≠ [] := by
    intro h
    exact hne (List.reverse_eq_nil_iff.mp h)
  obtain ⟨c, cs, hx⟩ := List.exists_cons_of_ne_nil hrev
  have hc : c ∈ x := List.mem_reverse.mp (hx ▸ List.mem_cons_self c cs)
  have hws : asciiWhitespace c = false :=
    asciiWhitespace_false_of_idChar (all_idChar_mem hall hc)
  rw [hx, List.cons_append, List.dropWhile_cons_of_neg (by rw [hws]; exact Bool.false_ne_true)]

lemma pyStripChars_canonical (x : List Char) (hne : x ≠ [])
    (hall : x.all isIdChar = true) :
    pyStripChars (canonicalPre ++ x) = canonicalPre ++ x := by
  unfold pyStripChars
  rw [strip_front x, List.reverse_append, strip_back_idchar x hne hall,
      List.reverse_append, List.reverse_reverse, List.reverse_reverse]

lemma pyStripChars_canonical_nl (x : List Char) (hne : x ≠ [])
    (hall : x.all isIdChar = true) :
    pyStripChars (canonicalPre ++ (x ++ ['\n'])) = canonicalPre ++ x := by
  unfold pyStripChars
  rw [strip_front (x ++ ['\n'])]
  rw [List.reverse_append, List.reverse_append]
  simp only [List.reverse_cons, List.reverse_nil, List.nil_append, List.cons_append,
    List.append_assoc]
  rw [List.dropWhile_cons_of_pos (by decide)]
  rw [strip_back_idchar x hne hall, List.reverse_append, List.reverse_reverse,
      List.reverse_reverse]

lemma parseQsl_v (x : List Char) (hne : x ≠ []) (hall : x.all isIdChar = true) :
    parseQsl ("v=".data ++ x) = [("v".data, x)] := by
  have hsplit : splitAllChar '&' ("v=".data ++ x) = ["v=".data ++ x] := by
    apply splitAllChar_no_sep
    intro c hc
    rcases List.mem_append.mp hc with h | h
    · exact (by decide : ∀ c ∈ ("v=".data : List Char), (c == '&') = false) c h
    · exact idChar_beq_false (all_idChar_mem hall h) (by decide)
  unfold parseQsl
  rw [hsplit]
  dsimp only [List.foldr]
  rw [show (("v=".data ++ x) == ([] : List Char)) = false from rfl]
  simp only [Bool.false_eq_true, if_false]
  rw [show (("v=".data ++ x).any (fun c => c == '=')) = true from rfl]
  simp only [if_true]
  rw [show ((("v=".data ++ x).dropWhile (fun c => c != '=')).tail) = x from rfl]
  rw [beq_eq_false_iff_ne.mpr hne]
  simp only [Bool.false_eq_true, if_false]
  rw [show (("v=".data ++ x).takeWhile (fun c => c != '=')) = "v".data from rfl]
  rw [pyUnquotePlus_idChar hall,
      (by decide : pyUnquotePlus "v".data = "v".data)]

lemma firstQueryValue_v (x : List Char) (hne : x ≠ []) (hall : x.all isIdChar = true) :
    firstQueryValue "v".data ("v=".data ++ x) = some x := by
  unfold firstQueryValue
  rw [parseQsl_v x hne hall]
  rfl

lemma extractFromParsed_canonical (x : List Char) (hne : x ≠ [])
    (hall : x.all isIdChar = true) :
    extractFromParsed ⟨"https".data, "www.youtube.com".data, "/watch".data, [],
      "v=".data ++ x, []⟩ = some x := by
  unfold extractFromParsed
  dsimp only
  rw [show stripWww (("www.youtube.com".data : List Char).map Char.toLower) =
      "youtube.com".data from by decide]
  rw [if_neg (by decide)]
  rw [if_pos (by decide)]
  rw [if_pos (by decide)]
  exact firstQueryValue_v x hne hall

lemma extract_video_id_canonical (x : List Char) (h11 : x.length = 11)
    (hall : x.all isIdChar = true) :
    extract_video_id (String.mk (canonicalPre ++ x)) = some (String.mk x) := by
  have hne : x ≠ [] := by
    intro h
    rw [h] at h11
    cases h11
  unfold extract_video_id
  rw [show (String.mk (canonicalPre ++ x)).data = canonicalPre ++ x from rfl]
  rw [pyStripChars_canonical x hne hall, pyUrlparse_canonical x hall]
  dsimp only
  rw [extractFromParsed_canonical x hne hall]
  dsimp only
  have hbne : (x != []) = true := bne_iff_ne.mpr hne
  have hm : videoIdMatch x = true := by
    unfold videoIdMatch
    rw [h11, hall]
    rfl
  rw [if_pos (by rw [hbne, hm]; rfl)]

lemma extract_video_id_canonical_nl (x : List Char) (h11 : x.length = 11)
    (hall : x.all isIdChar = true) :
    extract_video_id (String.mk (canonicalPre ++ (x ++ ['\n']))) =
      some (String.mk x) := by
  have hne : x ≠ [] := by
    intro h
    rw [h] at h11
    cases h11
  unfold extract_video_id
  rw [show (String.mk (canonicalPre ++ (x ++ ['\n']))).data =
      canonicalPre ++ (x ++ ['\n']) from rfl]
  rw [pyStripChars_canonical_nl x hne hall, pyUrlparse_canonical x hall]
  dsimp only
  rw [extractFromParsed_canonical x hne hall]
  dsimp only
  have hbne : (x != []) = true := bne_iff_ne.mpr hne
  have hm : videoIdMatch x = true := by
    unfold videoIdMatch
    rw [h11, hall]
    rfl
  rw [if_pos (by rw [hbne, hm]; rfl)]

lemma videoIdMatch_cases {l : List Char} (h : videoIdMatch l = true) :
    (l.length = 11 ∧ l.all isIdChar = true) ∨
    (∃ y : List Char, l = y ++ ['\n'] ∧ y.length = 11 ∧ y.all isIdChar = true) := by
  unfold videoIdMatch at h
  by_cases hA : (l.length == 11 && l.all isIdChar) = true
  · left
    simp only [Bool.and_eq_true, beq_iff_eq] at hA
    exact hA
  · right
    rw [Bool.not_eq_true] at hA
    rw [hA, Bool.false_or] at h
    rw [Bool.and_eq_true, Bool.and_eq_true] at h
    obtain ⟨⟨hlen, htake⟩, hlast⟩ := h
    have h12 : l.length = 12 := beq_iff_eq.mp hlen
    refine ⟨l.take 11, ?_, ?_, htake⟩
    · have hlen1 : (l.drop 11).length = 1 := by
        rw [List.length_drop, h12]
      obtain ⟨c, hc⟩ := List.length_eq_one.mp hlen1
      have hg : l.getLast? = some c := by
        conv_lhs => rw [← List.take_append_drop 11 l, hc]
        exact List.getLast?_concat _
      have hcnl : c = '\n' :=
        Option.some.inj (hg.symm.trans (eq_of_beq hlast))
      conv_lhs => rw [← List.take_append_drop 11 l, hc, hcnl]
    · rw [List.length_take, h12]
      rfl

lemma canonical_eq_of_some {u id : String} (h : extract_video_id u = some id) :
    canonical_watch_url u = String.mk (canonicalPre ++ id.data) := by
  unfold canonical_watch_url
  rw [h]
  dsimp only
  simp [extract_not_empty h]

/-! ### Claim C10 -/

/-- C10 (amended): whenever `extract_video_id(u)` resolves to an identifier,
re-extraction from the canonicalized URL also resolves — so the download
worker can never fail with "Invalid YouTube URL." for a URL whose identifier
already resolved — but it resolves to the identifier with a trailing newline
removed, not always to the same identifier: an identifier ending in the
newline admitted by Python's `$` anchor loses it, because `urlsplit` strips
`\n` from the rebuilt URL (see the counterexample). -/
theorem C10_canonical_stability (u id : String) (h : extract_video_id u = some id) :
    extract_video_id (canonical_watch_url u) = some (dropTrailingNewline id) := by
  have hm := (extract_some_spec h).2.1
  rw [canonical_eq_of_some h]
  rcases videoIdMatch_cases hm with ⟨h11, hall⟩ | ⟨y, hy, h11, hall⟩
  · rw [extract_video_id_canonical id.data h11 hall]
    have hdt : dropTrailingNewline id = id := by
      unfold dropTrailingNewline
      rw [if_neg ?hcond]
      case hcond =>
        intro hbeq
        have heq : id.data.getLast? = some '\n' := eq_of_beq (by simpa using hbeq)
        have hmem : '\n' ∈ id.data := List.mem_of_mem_getLast? heq
        have := all_idChar_mem hall hmem
        simp [isIdChar] at this
    rw [hdt]
  · rw [hy, extract_video_id_canonical_nl y h11 hall]
    have hdt : dropTrailingNewline id = String.mk y := by
      unfold dropTrailingNewline
      rw [if_pos ?hcond2]
      case hcond2 =>
        rw [hy, List.getLast?_concat]
        rfl
      rw [hy, List.dropLast_concat]
    rw [hdt]

/-- Witness for C10: the theorem applied at the spec's example URL. -/
theorem C10_canonical_stability_witness :
    extract_video_id "https://youtu.be/dQw4w9WgXcQ?t=5" = some "dQw4w9WgXcQ" ∧
    extract_video_id (canonical_watch_url "https://youtu.be/dQw4w9WgXcQ?t=5") =
      some (dropTrailingNewline "dQw4w9WgXcQ") := by
  have h : extract_video_id "https://youtu.be/dQw4w9WgXcQ?t=5" = some "dQw4w9WgXcQ" := by
    decide
  exact ⟨h, C10_canonical_stability _ _ h⟩

/-- C10 counterexample: for the `%0A` input the original extraction yields
`"abcdefghij1\n"`, but extraction from the canonicalized URL yields
`"abcdefghij1"` — a different identifier, refuting "resolves to that same
identifier" as stated. -/
theorem C10_counterexample :
    extract_video_id "https://youtube.com/watch?v=abcdefghij1%0A" =
      some "abcdefghij1\n" ∧
    extract_video_id (canonical_watch_url "https://youtube.com/watch?v=abcdefghij1%0A") =
      some "abcdefghij1" ∧
    ("abcdefghij1" : String) ≠ "abcdefghij1\n" := by decide

/-! ### Cache-lookup lemmas -/

lemma lexLe_refl (l : List Char) : lexLe l l = true := by
  induction l with
  | nil => rfl
  | cons c cs ih =>
    unfold lexLe
    rw [if_neg (lt_irrefl c), if_neg (lt_irrefl c)]
    exact ih

lemma lexLe_total (a b : List Char) : lexLe a b = true ∨ lexLe b a = true := by
  induction a generalizing b with
  | nil => exact Or.inl rfl
  | cons c cs ih =>
    cases b with
    | nil => exact Or.inr rfl
    | cons d ds =>
      unfold lexLe
      by_cases h1 : c < d
      · left
        rw [if_pos h1]
      · by_cases h2 : d < c
        · right
          rw [if_pos h2]
        · rcases ih ds with h | h
          · left
            rw [if_neg h1, if_neg h2]
            exact h
          · right
            rw [if_neg h2, if_neg h1]
            exact h

lemma lexLe_trans : ∀ {a b c : List Char}, lexLe a b = true → lexLe b c = true →
    lexLe a c = true := by
  intro a
  induction a with
  | nil => intro b c _ _; rfl
  | cons x xs ih =>
    intro b c h1 h2
    cases b with
    | nil => cases h1
    | cons y ys =>
      cases c with
      | nil => cases h2
      | cons z zs =>
        unfold lexLe at h1 h2 ⊢
        by_cases hxy : x < y
        · by_cases hyz : y < z
          · rw [if_pos (lt_trans hxy hyz)]
          · rw [if_neg hyz] at h2
            by_cases hzy : z < y
            · rw [if_pos hzy] at h2
              cases h2
            · rw [if_pos (lt_of_lt_of_le hxy (not_lt.mp hzy))]
        · rw [if_neg hxy] at h1
          by_cases hyx : y < x
          · rw [if_pos hyx] at h1
            cases h1
          · rw [if_neg hyx] at h1
            have hxeqy : x = y := le_antisymm (not_lt.mp hyx) (not_lt.mp hxy)
            subst hxeqy
            by_cases hyz : x < z
            · rw [if_pos hyz]
            · rw [if_neg hyz] at h2 ⊢
              by_cases hzx : z < x
              · rw [if_pos hzx] at h2
                cases h2
              · rw [if_neg hzx] at h2 ⊢
                exact ih h1 h2

lemma insertByName_perm (e : DirEntry) (l : List DirEntry) :
    (insertByName e l).Perm (e :: l) := by
  induction l with
  | nil => exact List.Perm.refl _
  | cons x xs ih =>
    unfold insertByName
    by_cases h : lexLe e.name.data x.name.data = true
    · rw [if_pos h]
    · rw [if_neg h]
      exact (ih.cons x).trans (List.Perm.swap e x xs)

lemma sortedByName_perm (l : List DirEntry) : (sortedByName l).Perm l := by
  induction l with
  | nil => exact List.Perm.refl _
  | cons x xs ih =>
    exact (insertByName_perm x (sortedByName xs)).trans (ih.cons x)

lemma mem_insertByName {e x : DirEntry} {l : List DirEntry}
    (h : x ∈ insertByName e l) : x = e ∨ x ∈ l := by
  have := (insertByName_perm e l).mem_iff.mp h
  simpa using this

lemma insertByName_pairwise (e : DirEntry) (l : List DirEntry)
    (hs : l.Pairwise (fun a b => lexLe a.name.data b.name.data = true)) :
    (insertByName e l).Pairwise (fun a b => lexLe a.name.data b.name.data = true) := by
  induction l with
  | nil =>
    unfold insertByName
    exact List.pairwise_singleton _ _
  | cons x xs ih =>
    rcases List.pairwise_cons.mp hs with ⟨hx, hxs⟩
    unfold insertByName
    by_cases h : lexLe e.name.data x.name.data = true
    · rw [if_pos h]
      refine List.pairwise_cons.mpr ⟨?_, hs⟩
      intro y hy
      rcases List.mem_cons.mp hy with rfl | hy
      · exact h
      · exact lexLe_trans h (hx y hy)
    · rw [if_neg h]
      refine List.pairwise_cons.mpr ⟨?_, ih hxs⟩
      intro y hy
      rcases mem_insertByName hy with heq | hy
      · rw [heq]
        rcases lexLe_total e.name.data x.name.data with ht | ht
        · exact absurd ht h
        · exact ht
      · exact hx y hy

lemma sortedByName_pairwise (l : List DirEntry) :
    (sortedByName l).Pairwise (fun a b => lexLe a.name.data b.name.data = true) := by
  induction l with
  | nil => exact List.Pairwise.nil
  | cons x xs ih => exact insertByName_pairwise x (sortedByName xs) ih

lemma find?_min {p : DirEntry → Bool} {l : List DirEntry} {e : DirEntry}
    (hs : l.Pairwise (fun a b => lexLe a.name.data b.name.data = true))
    (h : l.find? p = some e) :
    p e = true ∧ e ∈ l ∧
      ∀ y ∈ l, p y = true → lexLe e.name.data y.name.data = true := by
  induction l with
  | nil => cases h
  | cons x xs ih =>
    rcases List.pairwise_cons.mp hs with ⟨hx, hxs⟩
    by_cases hp : p x = true
    · rw [List.find?_cons_of_pos _ hp] at h
      cases h
      refine ⟨hp, List.mem_cons_self _ _, ?_⟩
      intro y hy _
      rcases List.mem_cons.mp hy with rfl | hy
      · exact lexLe_refl _
      · exact hx y hy
    · rw [List.find?_cons_of_neg _ (by simpa using hp)] at h
      obtain ⟨hpe, hmem, hmin⟩ := ih hxs h
      refine ⟨hpe, List.mem_cons_of_mem _ hmem, ?_⟩
      intro y hy hpy
      rcases List.mem_cons.mp hy with rfl | hy
      · exact absurd hpy hp
      · exact hmin y hy hpy

lemma findFirstGood_eq (l : List DirEntry) :
    findFirstGood l =
      (l.find? (fun e => e.isFile &&
        !hasSkipSuffix (e.name.data.map Char.toLower))).map (fun e => e.name) := by
  induction l with
  | nil => rfl
  | cons e rest ih =>
    unfold findFirstGood
    by_cases h1 : e.isFile = true
    · by_cases h2 : hasSkipSuffix (e.name.data.map Char.toLower) = true
      · rw [if_neg (by rw [h1]; decide), if_pos h2, ih,
            List.find?_cons_of_neg _ (by rw [h1, h2]; decide)]
      · rw [Bool.not_eq_true] at h2
        rw [if_neg (by rw [h1]; decide), if_neg (by rw [h2]; decide),
            List.find?_cons_of_pos _ (by rw [h1, h2]; decide)]
        rfl
    · rw [Bool.not_eq_true] at h1
      rw [if_pos (by rw [h1]; decide), ih,
          List.find?_cons_of_neg _ (by rw [h1]; simp)]

/-! ### Claim C8 -/

/-- C8 (confirmed): `find_cached_audio` returns a name `f` exactly of an
entry of the directory that matches `<id>.*`, is a regular file and carries
no partial-download suffix, and `f` is least in name order among all such
entries (the "first file in sorted-name order"); when the result is
not-found, no entry of the directory is eligible.  The spec's scenario —
`<id>.part` ignored, `<id>.m4a` returned when both are present — is
instantiated in the witness. -/
theorem C8_find_cached_audio (dir : List DirEntry) (video_id : String) :
    (∀ f : String, find_cached_audio dir video_id = some f →
       ∃ e ∈ dir, e.name = f ∧ eligibleCache video_id e = true ∧
         ∀ e2 ∈ dir, eligibleCache video_id e2 = true →
           lexLe f.data e2.name.data = true) ∧
    (find_cached_audio dir video_id = none →
       ∀ e ∈ dir, eligibleCache video_id e = false) := by
  have hperm := sortedByName_perm (dir.filter
    (fun e => fnmatchList (video_id.data ++ ['.', '*']) e.name.data))
  have hpair := sortedByName_pairwise (dir.filter
    (fun e => fnmatchList (video_id.data ++ ['.', '*']) e.name.data))
  constructor
  · intro f hf
    unfold find_cached_audio at hf
    rw [findFirstGood_eq] at hf
    cases hfind : List.find?
        (fun e => e.isFile && !hasSkipSuffix (e.name.data.map Char.toLower))
        (sortedByName (dir.filter
          (fun e => fnmatchList (video_id.data ++ ['.', '*']) e.name.data))) with
    | none =>
      rw [hfind] at hf
      cases hf
    | some e =>
      rw [hfind] at hf
      simp only [Option.map_some'] at hf
      have hfe : e.name = f := Option.some.inj hf
      obtain ⟨hpe, hmem, hmin⟩ := find?_min hpair hfind
      have hmem2 := hperm.mem_iff.mp hmem
      have hm := List.mem_filter.mp hmem2
      simp only [Bool.and_eq_true] at hpe
      refine ⟨e, hm.1, hfe, ?_, ?_⟩
      · simp only [eligibleCache, Bool.and_eq_true]
        exact ⟨⟨hm.2, hpe.1⟩, hpe.2⟩
      · intro e2 he2 helig2
        simp only [eligibleCache, Bool.and_eq_true] at helig2
        obtain ⟨⟨hm2, hf2⟩, hs2⟩ := helig2
        have hin2 : e2 ∈ sortedByName (dir.filter
            (fun e => fnmatchList (video_id.data ++ ['.', '*']) e.name.data)) :=
          hperm.mem_iff.mpr (List.mem_filter.mpr ⟨he2, hm2⟩)
        rw [← hfe]
        exact hmin e2 hin2 (by rw [hf2, hs2]; rfl)
  · intro hnone e he
    rw [Bool.eq_false_iff]
    intro helig
    unfold find_cached_audio at hnone
    rw [findFirstGood_eq] at hnone
    have hfind : List.find?
        (fun e => e.isFile && !hasSkipSuffix (e.name.data.map Char.toLower))
        (sortedByName (dir.filter
          (fun e => fnmatchList (video_id.data ++ ['.', '*']) e.name.data))) = none := by
      cases hfind : List.find?
          (fun e => e.isFile && !hasSkipSuffix (e.name.data.map Char.toLower))
          (sortedByName (dir.filter
            (fun e => fnmatchList (video_id.data ++ ['.', '*']) e.name.data))) with
      | none => rfl
      | some x =>
        rw [hfind] at hnone
        cases hnone
    have hall := List.find?_eq_none.mp hfind
    simp only [eligibleCache, Bool.and_eq_true] at helig
    obtain ⟨⟨hm, hfile⟩, hskip⟩ := helig
    have hin : e ∈ sortedByName (dir.filter
        (fun e => fnmatchList (video_id.data ++ ['.', '*']) e.name.data)) :=
      hperm.mem_iff.mpr (List.mem_filter.mpr ⟨he, hm⟩)
    exact (hall e hin) (by rw [hfile, hskip]; rfl)

/-- Witness for C8: the spec's cache scenario — with both `<id>.part` and
`<id>.m4a` present, the lookup returns `<id>.m4a` — with the theorem
applied to that result. -/
theorem C8_find_cached_audio_witness :
    find_cached_audio [⟨"dQw4w9WgXcQ.part", true⟩, ⟨"dQw4w9WgXcQ.m4a", true⟩]
        "dQw4w9WgXcQ" = some "dQw4w9WgXcQ.m4a" ∧
    (∃ e ∈ ([⟨"dQw4w9WgXcQ.part", true⟩, ⟨"dQw4w9WgXcQ.m4a", true⟩] : List DirEntry),
       e.name = "dQw4w9WgXcQ.m4a" ∧ eligibleCache "dQw4w9WgXcQ" e = true ∧
       ∀ e2 ∈ ([⟨"dQw4w9WgXcQ.part", true⟩, ⟨"dQw4w9WgXcQ.m4a", true⟩] : List DirEntry),
         eligibleCache "dQw4w9WgXcQ" e2 = true →
           lexLe "dQw4w9WgXcQ.m4a".data e2.name.data = true) := by
  have h : find_cached_audio [⟨"dQw4w9WgXcQ.part", true⟩, ⟨"dQw4w9WgXcQ.m4a", true⟩]
      "dQw4w9WgXcQ" = some "dQw4w9WgXcQ.m4a" := by decide
  exact ⟨h, (C8_find_cached_audio _ _).1 _ h⟩

/-! ### Persistence lemmas -/

lemma PyList_toList_ofList (l : List PyVal) : (PyList.ofList l).toList = l := by
  induction l with
  | nil => rfl
  | cons v rest ih =>
    unfold PyList.ofList PyList.toList
    rw [ih]

lemma fixSnap_id (s : TimerSnapshot) : (fixSnap s).timer_id = s.timer_id := by
  unfold fixSnap
  split <;> rfl

lemma loadOneItem_snapshot (fresh : Nat → String) (st : LoadState) (s : TimerSnapshot)
    (hid : s.timer_id ≠ "") (htitle : s.title ≠ "") (htot : 1 ≤ s.total_seconds)
    (hrem : 0 ≤ s.remaining_seconds)
    (hnotin : ∀ c ∈ st.cards, c.timer_id ≠ s.timer_id) :
    loadOneItem fresh st (snapshotToPy s) =
      Except.ok ⟨st.cards ++ [fixSnap s], st.draws, true⟩ := by
  have hany : (st.cards.any (fun c => c.timer_id == s.timer_id)) = false := by
    rw [Bool.eq_false_iff]
    intro hany
    obtain ⟨c, hc, hcb⟩ := List.any_eq_true.mp hany
    exact hnotin c hc (eq_of_beq hcb)
  unfold loadOneItem snapshotToPy
  dsimp only
  rw [show ((PyDict.cons "timer_id" (.str s.timer_id)
      (.cons "title" (.str s.title) (.cons "total_seconds" (.int s.total_seconds)
      (.cons "remaining_seconds" (.int s.remaining_seconds)
      (.cons "is_running" (.bool s.is_running) .nil))))).get "timer_id")
      = some (.str s.timer_id) from rfl]
  rw [show ((PyDict.cons "timer_id" (.str s.timer_id)
      (.cons "title" (.str s.title) (.cons "total_seconds" (.int s.total_seconds)
      (.cons "remaining_seconds" (.int s.remaining_seconds)
      (.cons "is_running" (.bool s.is_running) .nil))))).get "title")
      = some (.str s.title) from rfl]
  rw [show ((PyDict.cons "timer_id" (.str s.timer_id)
      (.cons "title" (.str s.title) (.cons "total_seconds" (.int s.total_seconds)
      (.cons "remaining_seconds" (.int s.remaining_seconds)
      (.cons "is_running" (.bool s.is_running) .nil))))).get "total_seconds")
      = some (.int s.total_seconds) from rfl]
  rw [show ((PyDict.cons "timer_id" (.str s.timer_id)
      (.cons "title" (.str s.title) (.cons "total_seconds" (.int s.total_seconds)
      (.cons "remaining_seconds" (.int s.remaining_seconds)
      (.cons "is_running" (.bool s.is_running) .nil))))).get "remaining_seconds")
      = some (.int s.remaining_seconds) from rfl]
  rw [show ((PyDict.cons "timer_id" (.str s.timer_id)
      (.cons "title" (.str s.title) (.cons "total_seconds" (.int s.total_seconds)
      (.cons "remaining_seconds" (.int s.remaining_seconds)
      (.cons "is_running" (.bool s.is_running) .nil))))).get "is_running")
      = some (.bool s.is_running) from rfl]
  dsimp only [Option.getD]
  rw [show pyTruthy (.str s.timer_id) = (s.timer_id != "") from rfl,
      show pyTruthy (.str s.title) = (s.title != "") from rfl,
      show pyTruthy (.int s.total_seconds) = (s.total_seconds != 0) from rfl,
      show pyTruthy (.int s.remaining_seconds) = (s.remaining_seconds != 0) from rfl,
      show pyTruthy (.bool s.is_running) = s.is_running from rfl]
  rw [if_pos (bne_iff_ne.mpr hid), if_pos (bne_iff_ne.mpr htitle),
      if_pos (bne_iff_ne.mpr (show s.total_seconds ≠ 0 by omega))]
  rw [show pyStr (.str s.timer_id) = s.timer_id from rfl,
      show pyStr (.str s.title) = s.title from rfl,
      show pyToInt (.int s.total_seconds) = Except.ok s.total_seconds from rfl]
  by_cases hr0 : s.remaining_seconds = 0
  · rw [hr0]
    rw [show ((0 : Int) != 0) = false from rfl]
    simp only [Bool.false_eq_true, if_false]
    unfold add_timer_card
    dsimp only
    rw [beq_eq_false_iff_ne.mpr hid]
    simp only [Bool.false_eq_true, if_false]
    rw [hany]
    simp only [Bool.false_eq_true, if_false]
    unfold TimerCard.init fixSnap
    rw [if_pos hr0]
    simp only [Option.getD_some, max_eq_right htot,
      max_eq_right (show (0:Int) ≤ s.total_seconds by omega),
      decide_eq_true (show (0:Int) < s.total_seconds by omega), Bool.and_true]
  · simp only [bne_iff_ne.mpr hr0, eq_self_iff_true, if_true]
    rw [show pyToInt (.int s.remaining_seconds) = Except.ok s.remaining_seconds from rfl]
    dsimp only
    unfold add_timer_card
    dsimp only
    rw [beq_eq_false_iff_ne.mpr hid]
    simp only [Bool.false_eq_true, if_false]
    rw [hany]
    simp only [Bool.false_eq_true, if_false]
    unfold TimerCard.init fixSnap
    rw [if_neg hr0]
    simp only [Option.getD_some, max_eq_right htot, max_eq_right hrem,
      decide_eq_true (show (0:Int) < s.remaining_seconds by omega), Bool.and_true]

lemma load_items_snapshots (fresh : Nat → String) :
    ∀ (T : List TimerSnapshot) (done : List TimerSnapshot) (k : Nat) (b : Bool),
    (∀ s ∈ T, validSnap s) →
    ((T.map (fun s => s.timer_id)).Nodup) →
    (∀ s ∈ T, ∀ c ∈ done, c.timer_id ≠ s.timer_id) →
    (T.map snapshotToPy).foldlM (loadOneItem fresh) ⟨done, k, b⟩ =
      Except.ok ⟨done ++ T.map fixSnap, k, b || !T.isEmpty⟩ := by
  intro T
  induction T with
  | nil =>
    intro done k b _ _ _
    simp only [List.map_nil, List.foldlM, List.isEmpty_nil, Bool.not_true, Bool.or_false,
      List.append_nil]
    rfl
  | cons s rest ih =>
    intro done k b hvalid hnodup hdisj
    obtain ⟨hid, htitle, htot, hrem⟩ := hvalid s (List.mem_cons_self s rest)
    have hknot : (∀ x ∈ rest, ¬ x.timer_id = s.timer_id) ∧
        (rest.map (fun s => s.timer_id)).Nodup := by simpa using hnodup
    simp only [List.map_cons]
    rw [List.foldlM_cons]
    rw [loadOneItem_snapshot fresh ⟨done, k, b⟩ s hid htitle htot hrem
        (fun c hc => hdisj s (List.mem_cons_self s rest) c hc)]
    simp only [Bind.bind, Except.bind]
    rw [ih (done ++ [fixSnap s]) k true
        (fun s2 hs2 => hvalid s2 (List.mem_cons_of_mem s hs2))
        hknot.2
        ?_]
    · simp
    · intro s2 hs2 c hc
      rcases List.mem_append.mp hc with hc | hc
      · exact hdisj s2 (List.mem_cons_of_mem s hs2) c hc
      · rcases List.mem_singleton.mp hc with rfl
        rw [fixSnap_id]
        intro heq
        exact hknot.1 s2 hs2 heq.symm

/-! ### Claim C1 -/

/-- C1 (amended): for every non-empty ordered list `T` of snapshots with
pairwise-distinct non-empty ids, non-empty titles, `total_seconds ≥ 1` and
`remaining_seconds ≥ 0`, reloading the saved layout reproduces `T` in order
with all ids, titles, totals and running flags preserved — except that an
entry with `remaining_seconds = 0` is restored with
`remaining_seconds = total_seconds` and its running flag intact (the Python
`or` fallback treats the falsy 0 as a missing field), not, as the claim
states, with `remaining_seconds = 0` and `is_running` normalized to false.
Consequently `save(load(save(T))) = save(T.map fixSnap)`. -/
theorem C1_roundtrip (fresh : Nat → String) (T : List TimerSnapshot)
    (hne : T ≠ []) (hvalid : ∀ s ∈ T, validSnap s)
    (hnodup : (T.map (fun s => s.timer_id)).Nodup) :
    load_layout fresh (Option.some (save_layout T)) =
      Except.ok (T.map fixSnap, false) := by
  obtain ⟨s, rest, rfl⟩ := List.exists_cons_of_ne_nil hne
  unfold load_layout save_layout
  dsimp only
  rw [show PyDict.get (.cons "timers"
        (.list (PyList.ofList ((s :: rest).map snapshotToPy))) .nil) "timers"
      = some (.list (PyList.ofList ((s :: rest).map snapshotToPy))) from rfl]
  dsimp only
  rw [PyList_toList_ofList]
  simp only [List.map_cons]
  rw [show (snapshotToPy s :: rest.map snapshotToPy) =
      ((s :: rest).map snapshotToPy) from rfl]
  rw [load_items_snapshots fresh (s :: rest) [] 0 false hvalid hnodup
      (fun s2 _ c hc => absurd hc (List.not_mem_nil c))]
  dsimp only
  simp only [List.isEmpty_cons, Bool.false_or, Bool.not_false, if_true, List.nil_append,
    List.map_cons]

/-- Witness for C1: the round-trip theorem at a concrete two-timer layout
whose snapshots all have positive remaining time, so the reloaded list is
exactly the original. -/
theorem C1_roundtrip_witness :
    load_layout (fun n => toString n)
        (Option.some (save_layout [⟨"a", "t", 5, 3, true⟩, ⟨"b", "u", 7, 7, false⟩])) =
      Except.ok ([⟨"a", "t", 5, 3, true⟩, ⟨"b", "u", 7, 7, false⟩], false) := by
  have h := C1_roundtrip (fun n => toString n)
    [⟨"a", "t", 5, 3, true⟩, ⟨"b", "u", 7, 7, false⟩]
    (by decide) (by decide) (by decide)
  rw [show ([⟨"a", "t", 5, 3, true⟩, ⟨"b", "u", 7, 7, false⟩] :
      List TimerSnapshot).map fixSnap =
      [⟨"a", "t", 5, 3, true⟩, ⟨"b", "u", 7, 7, false⟩] from by decide] at h
  exact h

/-- C1 counterexample: for `T = [{id:"a", title:"t", total:5, remaining:0,
running:true}]` the claim predicts the reload gives `remaining = 0` and
`is_running` normalized to false; the code instead restores
`remaining = total = 5` with the running flag kept, so `save(load(save(T)))`
matches neither the claim's normalized list nor `T` itself. -/
theorem C1_counterexample :
    load_layout (fun n => toString n)
        (Option.some (save_layout [⟨"a", "t", 5, 0, true⟩])) =
      Except.ok ([⟨"a", "t", 5, 5, true⟩], false) ∧
    ([⟨"a", "t", 5, 5, true⟩] : List TimerSnapshot) ≠ [⟨"a", "t", 5, 0, false⟩] ∧
    ([⟨"a", "t", 5, 5, true⟩] : List TimerSnapshot) ≠ [⟨"a", "t", 5, 0, true⟩] := by
  decide

lemma seedCards_eq (fresh : Nat → String) (k : Nat)
    (h01 : fresh k ≠ fresh (k+1)) (h02 : fresh k ≠ fresh (k+2))
    (h12 : fresh (k+1) ≠ fresh (k+2)) :
    seedCards fresh k =
      ([⟨fresh k, "1 min", 60, 60, false⟩,
        ⟨fresh (k+1), "3 min", 180, 180, false⟩,
        ⟨fresh (k+2), "1 hour", 3600, 3600, false⟩], k+3) := by
  unfold seedCards add_timer_card TimerCard.init
  simp only [List.any_nil, Bool.false_eq_true, if_false, List.nil_append, Option.getD_none,
    List.any_cons, List.any_nil, Bool.or_false]
  norm_num [beq_eq_false_iff_ne.mpr h01, beq_eq_false_iff_ne.mpr h02,
    beq_eq_false_iff_ne.mpr h12]

/-! ### Claim C7 -/

/-- C7 (amended): `load_layout` swallows a missing file, I/O errors,
malformed JSON and a non-object root (all modelled by the input being
`none` or a non-dict value), seeding exactly the three default timers
(1 min, 3 min, 1 hour) and writing the layout immediately; a restorable
item's unknown or missing fields fall back to `title = "Timer"`,
`total_seconds = 60`, `remaining_seconds = total`, `is_running = false`.
The corrections: the `int()` conversions of the field values sit outside
the `try`, so a non-numeric string such as `total_seconds: "abc"` makes
`load_layout` raise to the caller (see the counterexample); and the
remaining-time default is the raw total before the `max(1, ·)` clamp. -/
theorem C7_load_tolerant (fresh : Nat → String)
    (h01 : fresh 0 ≠ fresh 1) (h02 : fresh 0 ≠ fresh 2) (h12 : fresh 1 ≠ fresh 2)
    (h0 : fresh 0 ≠ "") :
    load_layout fresh Option.none =
      Except.ok ([⟨fresh 0, "1 min", 60, 60, false⟩,
                  ⟨fresh 1, "3 min", 180, 180, false⟩,
                  ⟨fresh 2, "1 hour", 3600, 3600, false⟩], true) ∧
    (∀ v : PyVal, (∀ kvs : PyDict, v ≠ .dict kvs) →
        load_layout fresh (Option.some v) = load_layout fresh Option.none) ∧
    load_layout fresh
        (Option.some (.dict (.cons "timers" (.list (.cons (.dict .nil) .nil)) .nil))) =
      Except.ok ([⟨fresh 0, "Timer", 60, 60, false⟩], false) := by
  refine ⟨?_, ?_, ?_⟩
  · unfold load_layout
    dsimp only
    rw [seedCards_eq fresh 0 h01 h02 h12]
    rfl
  · intro v hv
    cases v with
    | none => rfl
    | bool b => rfl
    | int n => rfl
    | str s => rfl
    | list xs => rfl
    | dict kvs => exact absurd rfl (hv kvs)
  · unfold load_layout
    dsimp only
    rw [show PyDict.get (.cons "timers" (.list (.cons (.dict .nil) .nil)) .nil) "timers"
        = some (.list (.cons (.dict .nil) .nil)) from rfl]
    dsimp only
    rw [show (PyList.cons (.dict .nil) .nil).toList = [PyVal.dict .nil] from rfl]
    dsimp only
    rw [List.foldlM_cons]
    unfold loadOneItem
    dsimp only
    rw [show (PyDict.nil.get "timer_id") = Option.none from rfl,
        show (PyDict.nil.get "title") = Option.none from rfl,
        show (PyDict.nil.get "total_seconds") = Option.none from rfl,
        show (PyDict.nil.get "remaining_seconds") = Option.none from rfl,
        show (PyDict.nil.get "is_running") = Option.none from rfl]
    dsimp only [Option.getD]
    rw [show pyTruthy PyVal.none = false from rfl]
    simp only [Bool.false_eq_true, if_false]
    unfold add_timer_card
    dsimp only
    rw [beq_eq_false_iff_ne.mpr h0]
    simp only [Bool.false_eq_true, if_false, List.any_nil]
    unfold TimerCard.init
    dsimp only [Option.getD]
    norm_num
    rfl

/-- Witness for C7: the theorem applied with decimal numerals as the
fresh-id supply. -/
theorem C7_load_tolerant_witness :
    load_layout (fun n => toString n) Option.none =
      Except.ok ([⟨"0", "1 min", 60, 60, false⟩, ⟨"1", "3 min", 180, 180, false⟩,
                  ⟨"2", "1 hour", 3600, 3600, false⟩], true) ∧
    load_layout (fun n => toString n)
        (Option.some (.dict (.cons "timers" (.list (.cons (.dict .nil) .nil)) .nil))) =
      Except.ok ([⟨"0", "Timer", 60, 60, false⟩], false) := by
  have h := C7_load_tolerant (fun n => toString n)
    (by decide) (by decide) (by decide) (by decide)
  exact ⟨h.1, h.2.2⟩

/-- C7 counterexample: valid JSON with an object root whose timer entry has
`total_seconds: "abc"` makes `load_layout` raise (`int("abc")` is evaluated
outside the `try` of lines 1091-1097), contradicting "load() never raises
to the caller for every layout-file content". -/
theorem C7_counterexample :
    (load_layout (fun n => toString n)
        (Option.some (.dict (.cons "timers"
          (.list (.cons (.dict (.cons "total_seconds" (.str "abc") .nil)) .nil)) .nil)))).isOk
      = false := by decide
